import Mathlib

/-!
Shallow embedding of the `CryptoPriceGuess` Solidity contract
(`contracts/CryptoPriceGuess.sol`), restricted to the prediction-event
ledger core that the specification covers: event creation, encrypted
submission and aggregation, the lifecycle transitions (end, set actual
price, finalize) and the decryption callback.

Modelling conventions:
* `euint32` ciphertexts are modelled by their cleartext value, a natural
  number strictly below `2^32` (the ideal functionality of the
  confidential-arithmetic capability).  `FHE.add` on `euint32` wraps
  modulo `2^32`, so homomorphic addition is `(a + b) % 2^32`.
  `FHE.fromExternal` of an external handle carrying cleartext `v` yields
  the ciphertext of `v % 2^32` (an `externalEuint32` cleartext is a
  32-bit value by type).
* Addresses, timestamps and `uint256` quantities are natural numbers.
  `msg.sender` and `block.timestamp` are passed to each operation as
  explicit `sender` / `now` arguments.
* Solidity `require` failures and arithmetic panics become `Except` errors;
  a reverted call leaves the pre-state in force, which `applyOp` realises
  by returning the unchanged state on error.
* Solidity mappings are association lists; a missing key denotes the
  zero-initialised struct / the value `0`, exactly as in the EVM.
* `FHE.requestDecryption` hands out fresh, strictly increasing request
  identifiers; this is modelled by the `nextRequestId` counter (the
  gateway never reuses an identifier).
-/

namespace CryptoPriceGuess

/-- Modulus of the 32-bit ciphertext space (`euint32` / `uint32`). -/
def U32 : Nat := 2 ^ 32

/-- Modulus of the `uint256` word: Solidity 0.8 checked arithmetic
reverts with `Panic(0x11)` whenever a result would reach it. -/
def U256 : Nat := 2 ^ 256

/-- Mirror of the `PredictionEvent` storage struct (the `euint32` field
`encryptedPriceSum` is modelled by its cleartext, see the file header). -/
structure PredictionEvent where
  title : String
  tokenType : Nat
  targetDate : Nat
  endTime : Nat
  isActive : Bool
  isFinalized : Bool
  admin : Nat
  totalPredictions : Nat
  actualPrice : Nat
  encryptedPriceSum : Nat
  decryptedAveragePrice : Nat
deriving Repr, DecidableEq

instance : Inhabited PredictionEvent :=
  ⟨⟨"", 0, 0, 0, false, false, 0, 0, 0, 0, 0⟩⟩

/-- Mirror of the `UserPrediction` struct.  The source field `exists` is a
Lean keyword and is rendered as `existsFlag`. -/
structure UserPrediction where
  encryptedPrice : Nat
  timestamp : Nat
  existsFlag : Bool
deriving Repr, DecidableEq

/-- Contract storage relevant to the prediction-event core:
`predictionEvents`, the `userPredictions` double mapping (association
list keyed by `(eventId, user)`), the `_requestToEvent` mapping
(association list keyed by `requestId`), and the fresh-request counter
modelling the decryption gateway. -/
structure ContractState where
  predictionEvents : List PredictionEvent
  userPredictions : List ((Nat × Nat) × UserPrediction)
  requestToEvent : List (Nat × Nat)
  nextRequestId : Nat
deriving Repr, DecidableEq

/-- Freshly deployed contract: all storage empty. -/
def initialState : ContractState :=
  { predictionEvents := []
    userPredictions := []
    requestToEvent := []
    nextRequestId := 1 }

/-- Read `userPredictions[eventId][user]`; a missing key is the
zero-initialised struct (in particular `existsFlag = false`). -/
def lookupPrediction (s : ContractState) (eventId user : Nat) : UserPrediction :=
  ((s.userPredictions.find? (fun q => q.1 == (eventId, user))).map Prod.snd).getD
    ⟨0, 0, false⟩

/-- Read `_requestToEvent[requestId]`; a missing key is `0`, exactly as a
Solidity `mapping(uint256 => uint256)` returns `0` for an unset key. -/
def lookupRequest (s : ContractState) (requestId : Nat) : Nat :=
  ((s.requestToEvent.find? (fun q => q.1 == requestId)).map Prod.snd).getD 0

/-- Read `predictionEvents[i]` (callers establish `i < length` first). -/
def getEvent (s : ContractState) (i : Nat) : PredictionEvent :=
  s.predictionEvents.getD i default

/-- Number of prediction events, mirror of `getEventCount`. -/
def getEventCount (s : ContractState) : Nat :=
  s.predictionEvents.length

/-- One constructor per distinct `require` message (or arithmetic panic)
reachable in the modelled functions. -/
inductive Err where
  | EventDoesNotExist
  | EventIsNotActive
  | EventHasEnded
  | EventIsFinalized
  | AlreadySubmittedPrediction
  | AlreadySubmittedPredictionForEvent
  | ArrayLengthMismatch
  | CannotSubmitEmptyBatch
  | BatchSizeTooLarge
  | OnlyAdmin
  | TargetDateMustBeInFuture
  | DurationMustBePositive
  | EventNotActive
  | EventHasNotEndedYet
  | TargetDateNotReached
  | ActualPriceMustBePositive
  | EventStillActive
  | EventAlreadyFinalized
  | NoPredictionsToFinalize
  | InvalidCleartextsLength
  | PanicArrayOutOfBounds
  | PanicDivisionByZero
  | PanicArithmeticOverflow
deriving Repr, DecidableEq

/-- Error taxonomy of the specification (section 7). -/
inductive ErrKind where
  | NotFound
  | InvalidParameter
  | InvalidState
  | PermissionDenied
  | DuplicateSubmission
  | Panic
deriving Repr, DecidableEq

/-- Classification of each concrete failure under the specification's
error taxonomy. -/
def Err.kind : Err → ErrKind
  | .EventDoesNotExist => .NotFound
  | .EventIsNotActive => .InvalidState
  | .EventHasEnded => .InvalidState
  | .EventIsFinalized => .InvalidState
  | .AlreadySubmittedPrediction => .DuplicateSubmission
  | .AlreadySubmittedPredictionForEvent => .DuplicateSubmission
  | .ArrayLengthMismatch => .InvalidParameter
  | .CannotSubmitEmptyBatch => .InvalidParameter
  | .BatchSizeTooLarge => .InvalidParameter
  | .OnlyAdmin => .PermissionDenied
  | .TargetDateMustBeInFuture => .InvalidParameter
  | .DurationMustBePositive => .InvalidParameter
  | .EventNotActive => .InvalidState
  | .EventHasNotEndedYet => .InvalidState
  | .TargetDateNotReached => .InvalidState
  | .ActualPriceMustBePositive => .InvalidParameter
  | .EventStillActive => .InvalidState
  | .EventAlreadyFinalized => .InvalidState
  | .NoPredictionsToFinalize => .InvalidState
  | .InvalidCleartextsLength => .InvalidParameter
  | .PanicArrayOutOfBounds => .Panic
  | .PanicDivisionByZero => .Panic
  | .PanicArithmeticOverflow => .Panic

/-- Mirror of `createPredictionEvent`: requires `_targetDate >
block.timestamp` and `_durationInHours > 0`, then computes
`endTime = block.timestamp + (_durationInHours * 1 hours)` with the
checked `uint256` arithmetic of Solidity 0.8 — the multiplication and
the addition each revert with `Panic(0x11)` on overflow — and pushes a
fresh event (Active, admin = caller, counters zero; `push()`
zero-initialises the ciphertext and average fields), returning its
sequential id.  There is no check on the title. -/
def createPredictionEvent (s : ContractState) (sender now : Nat)
    (title : String) (tokenType targetDate durationInHours : Nat) :
    Except Err (ContractState × Nat) :=
  if ¬ targetDate > now then .error .TargetDateMustBeInFuture
  else if ¬ durationInHours > 0 then .error .DurationMustBePositive
  else if U256 ≤ durationInHours * 3600 then .error .PanicArithmeticOverflow
  else if U256 ≤ now + durationInHours * 3600 then .error .PanicArithmeticOverflow
  else
    let eventId := s.predictionEvents.length
    let newEvent : PredictionEvent :=
      { title := title
        tokenType := tokenType
        targetDate := targetDate
        endTime := now + durationInHours * 3600
        isActive := true
        isFinalized := false
        admin := sender
        totalPredictions := 0
        actualPrice := 0
        encryptedPriceSum := 0
        decryptedAveragePrice := 0 }
    .ok ({ s with predictionEvents := s.predictionEvents ++ [newEvent] }, eventId)

/-- Mirror of `submitPrediction`.  Modifier order: `eventExists`, then
`eventActive` (`isActive`, `block.timestamp < endTime`, `!isFinalized`),
then the duplicate-submission check in the body.  `value` is the
cleartext carried by the external encrypted input;
`FHE.fromExternal` yields its 32-bit ciphertext.  The first submission
seeds the sum directly; later ones are added homomorphically
(wrapping modulo `2^32`). -/
def submitPrediction (s : ContractState) (sender now eventId value : Nat) :
    Except Err ContractState :=
  if ¬ eventId < s.predictionEvents.length then .error .EventDoesNotExist
  else
    let ev := getEvent s eventId
    if ev.isActive = false then .error .EventIsNotActive
    else if ¬ now < ev.endTime then .error .EventHasEnded
    else if ev.isFinalized then .error .EventIsFinalized
    else if (lookupPrediction s eventId sender).existsFlag then
      .error .AlreadySubmittedPrediction
    else
      let encryptedPrice := value % U32
      let newSum :=
        if ev.totalPredictions = 0 then encryptedPrice
        else (ev.encryptedPriceSum + encryptedPrice) % U32
      .ok { s with
        predictionEvents := s.predictionEvents.set eventId
          { ev with
            encryptedPriceSum := newSum
            totalPredictions := ev.totalPredictions + 1 }
        userPredictions :=
          ((eventId, sender), ⟨encryptedPrice, now, true⟩) :: s.userPredictions }

/-- Body of the `submitBatchPredictions` loop: per item the same checks
as `submitPrediction` (inlined in the source, with the distinct
duplicate message "Already submitted prediction for event"), applied
sequentially; the first failure aborts — reverting the whole call. -/
def submitBatchLoop (sender now : Nat) :
    ContractState → List (Nat × Nat) → Except Err ContractState
  | s, [] => .ok s
  | s, (eventId, value) :: rest =>
    if ¬ eventId < s.predictionEvents.length then .error .EventDoesNotExist
    else
      let ev := getEvent s eventId
      if ev.isActive = false then .error .EventIsNotActive
      else if ¬ now < ev.endTime then .error .EventHasEnded
      else if ev.isFinalized then .error .EventIsFinalized
      else if (lookupPrediction s eventId sender).existsFlag then
        .error .AlreadySubmittedPredictionForEvent
      else
        let encryptedPrice := value % U32
        let newSum :=
          if ev.totalPredictions = 0 then encryptedPrice
          else (ev.encryptedPriceSum + encryptedPrice) % U32
        submitBatchLoop sender now
          { s with
            predictionEvents := s.predictionEvents.set eventId
              { ev with
                encryptedPriceSum := newSum
                totalPredictions := ev.totalPredictions + 1 }
            userPredictions :=
              ((eventId, sender), ⟨encryptedPrice, now, true⟩) :: s.userPredictions }
          rest

/-- Mirror of `submitBatchPredictions`: array-length, non-empty and
batch-ceiling (10) checks, then the per-item loop.  The input proofs only
participate in the length check (proof verification is part of the
opaque capability), so they are modelled as `Unit`s. -/
def submitBatchPredictions (s : ContractState) (sender now : Nat)
    (eventIds values : List Nat) (inputProofs : List Unit) :
    Except Err ContractState :=
  if ¬ eventIds.length = values.length then .error .ArrayLengthMismatch
  else if ¬ eventIds.length = inputProofs.length then .error .ArrayLengthMismatch
  else if ¬ eventIds.length > 0 then .error .CannotSubmitEmptyBatch
  else if ¬ eventIds.length ≤ 10 then .error .BatchSizeTooLarge
  else submitBatchLoop sender now s (eventIds.zip values)

/-- Mirror of `endPredictionEvent`: callable by anyone; requires the
event to exist, `isActive`, and `block.timestamp >= endTime`; clears
`isActive`. -/
def endPredictionEvent (s : ContractState) (now eventId : Nat) :
    Except Err ContractState :=
  if ¬ eventId < s.predictionEvents.length then .error .EventDoesNotExist
  else
    let ev := getEvent s eventId
    if ev.isActive = false then .error .EventNotActive
    else if ¬ now ≥ ev.endTime then .error .EventHasNotEndedYet
    else .ok { s with
      predictionEvents := s.predictionEvents.set eventId { ev with isActive := false } }

/-- Mirror of `setActualPrice`: modifiers `eventExists`, `onlyAdmin`;
requires `block.timestamp >= targetDate` and `_actualPrice > 0`.  The
source contains no `isFinalized` check. -/
def setActualPrice (s : ContractState) (sender now eventId actualPrice : Nat) :
    Except Err ContractState :=
  if ¬ eventId < s.predictionEvents.length then .error .EventDoesNotExist
  else
    let ev := getEvent s eventId
    if ¬ ev.admin = sender then .error .OnlyAdmin
    else if ¬ now ≥ ev.targetDate then .error .TargetDateNotReached
    else if ¬ actualPrice > 0 then .error .ActualPriceMustBePositive
    else .ok { s with
      predictionEvents := s.predictionEvents.set eventId
        { ev with actualPrice := actualPrice } }

/-- Mirror of `finalizePredictionEvent`: modifiers `eventExists`,
`onlyAdmin`; requires `!isActive`, `!isFinalized`,
`totalPredictions > 0`; issues a decryption request for the sum (the
gateway assigns the fresh id `nextRequestId`) and records the
request-to-event correlation.  Returns the request id. -/
def finalizePredictionEvent (s : ContractState) (sender eventId : Nat) :
    Except Err (ContractState × Nat) :=
  if ¬ eventId < s.predictionEvents.length then .error .EventDoesNotExist
  else
    let ev := getEvent s eventId
    if ¬ ev.admin = sender then .error .OnlyAdmin
    else if ev.isActive then .error .EventStillActive
    else if ev.isFinalized then .error .EventAlreadyFinalized
    else if ev.totalPredictions = 0 then .error .NoPredictionsToFinalize
    else
      let requestId := s.nextRequestId
      .ok ({ s with
        requestToEvent := (requestId, eventId) :: s.requestToEvent
        nextRequestId := s.nextRequestId + 1 }, requestId)

/-- First four bytes of the cleartext payload read big-endian, the mirror
of the assembly `shr(224, mload(add(cleartexts, 32)))`. -/
def parseU32BE (cleartexts : List Nat) : Nat :=
  match cleartexts with
  | b0 :: b1 :: b2 :: b3 :: _ =>
    (b0 % 256) * 2 ^ 24 + (b1 % 256) * 2 ^ 16 + (b2 % 256) * 2 ^ 8 + b3 % 256
  | _ => 0

/-- The decryption gateway's cleartext payload for a single `euint32`
whose cleartext is `x`: the 32-bit value in four big-endian bytes. -/
def oracleCleartexts (x : Nat) : List Nat :=
  [x / 2 ^ 24 % 256, x / 2 ^ 16 % 256, x / 2 ^ 8 % 256, x % 256]

/-- Mirror of `decryptionCallback`.  The request lookup
`_requestToEvent[requestId]` yields `0` for an unrecorded request id —
there is no existence check in the source, so such a callback proceeds
against event `0` (or reverts with an array-bounds panic when no events
exist).  Requires `!isFinalized`, `!isActive`, a cleartext payload of at
least 4 bytes; computes `decryptedSum / uint32(totalPredictions)`
(the divisor is truncated to 32 bits by the cast; a zero divisor is an
EVM division panic), stores the average and marks the event finalized. -/
def decryptionCallback (s : ContractState) (requestId : Nat)
    (cleartexts : List Nat) : Except Err ContractState :=
  let eventId := lookupRequest s requestId
  if ¬ eventId < s.predictionEvents.length then .error .PanicArrayOutOfBounds
  else
    let ev := getEvent s eventId
    if ev.isFinalized then .error .EventAlreadyFinalized
    else if ev.isActive then .error .EventStillActive
    else if ¬ cleartexts.length ≥ 4 then .error .InvalidCleartextsLength
    else if ev.totalPredictions % U32 = 0 then .error .PanicDivisionByZero
    else
      let decryptedSum := parseU32BE cleartexts
      let averagePrice := decryptedSum / (ev.totalPredictions % U32)
      .ok { s with
        predictionEvents := s.predictionEvents.set eventId
          { ev with
            decryptedAveragePrice := averagePrice
            isFinalized := true } }

/-- Mirror of `hasUserPredicted`: a plain mapping read with no modifier,
total over all inputs. -/
def hasUserPredicted (s : ContractState) (eventId user : Nat) : Bool :=
  (lookupPrediction s eventId user).existsFlag

/-- The externally invocable state-mutating operations of the modelled
core, each carrying its caller and timestamp context. -/
inductive Op where
  | create (sender now : Nat) (title : String) (tokenType targetDate durationInHours : Nat)
  | submit (sender now eventId value : Nat)
  | batch (sender now : Nat) (eventIds values : List Nat) (inputProofs : List Unit)
  | endEvent (now eventId : Nat)
  | setPrice (sender now eventId actualPrice : Nat)
  | finalize (sender eventId : Nat)
  | callback (requestId : Nat) (cleartexts : List Nat)

/-- Transactional semantics of one invocation: an error reverts, leaving
the storage unchanged. -/
def applyOp (s : ContractState) : Op → ContractState
  | .create sender now title tokenType targetDate durationInHours =>
    match createPredictionEvent s sender now title tokenType targetDate durationInHours with
    | .ok (s', _) => s'
    | .error _ => s
  | .submit sender now eventId value =>
    match submitPrediction s sender now eventId value with
    | .ok s' => s'
    | .error _ => s
  | .batch sender now eventIds values inputProofs =>
    match submitBatchPredictions s sender now eventIds values inputProofs with
    | .ok s' => s'
    | .error _ => s
  | .endEvent now eventId =>
    match endPredictionEvent s now eventId with
    | .ok s' => s'
    | .error _ => s
  | .setPrice sender now eventId actualPrice =>
    match setActualPrice s sender now eventId actualPrice with
    | .ok s' => s'
    | .error _ => s
  | .finalize sender eventId =>
    match finalizePredictionEvent s sender eventId with
    | .ok (s', _) => s'
    | .error _ => s
  | .callback requestId cleartexts =>
    match decryptionCallback s requestId cleartexts with
    | .ok s' => s'
    | .error _ => s

deriving instance DecidableEq for Except

/-- States reachable from a fresh deployment by any sequence of
invocations. -/
inductive Reachable : ContractState → Prop where
  | init : Reachable initialState
  | step {s : ContractState} (op : Op) : Reachable s → Reachable (applyOp s op)

/-- Sequential single submissions (used to relate the batch loop to the
single-submission entry point and to describe an event's submission
history). -/
def submitFold (sender now : Nat) :
    ContractState → List (Nat × Nat) → Except Err ContractState
  | s, [] => .ok s
  | s, (eventId, value) :: rest =>
    match submitPrediction s sender now eventId value with
    | .ok s' => submitFold sender now s' rest
    | .error e => .error e

/-- The batch loop reports the duplicate-submission failure under its own
message; all other failures coincide with the single-submission ones. -/
def batchErr : Err → Err
  | .AlreadySubmittedPrediction => .AlreadySubmittedPredictionForEvent
  | e => e

/-- Lifecycle invariant: a finalized event is never active. -/
def EventsInv (s : ContractState) : Prop :=
  ∀ i, i < s.predictionEvents.length →
    (getEvent s i).isFinalized = true → (getEvent s i).isActive = false

/-- Correlation invariant: every recorded request-to-event entry carries
a key below the gateway's fresh-id counter and points at an existing
event with at least one submission. -/
def RequestsInv (s : ContractState) : Prop :=
  ∀ p ∈ s.requestToEvent,
    p.1 < s.nextRequestId ∧ p.2 < s.predictionEvents.length ∧
    0 < (getEvent s p.2).totalPredictions

/-- Correlation keys are pairwise distinct (the gateway never reuses a
request identifier). -/
def RequestKeysNodup (s : ContractState) : Prop :=
  (s.requestToEvent.map Prod.fst).Nodup

/-- Ledger invariant: every stored submission is keyed by an existing
event. -/
def PredsInv (s : ContractState) : Prop :=
  ∀ q ∈ s.userPredictions, q.1.1 < s.predictionEvents.length

/-- All state invariants together. -/
def Inv (s : ContractState) : Prop :=
  EventsInv s ∧ RequestsInv s ∧ RequestKeysNodup s ∧ PredsInv s

/-- Sequential submissions into a fixed event (used to describe an
event's full submission history). -/
def submitSeq (eventId : Nat) :
    ContractState → List (Nat × Nat × Nat) → Except Err ContractState
  | s, [] => .ok s
  | s, (sender, now, value) :: rest =>
    match submitPrediction s sender now eventId value with
    | .ok s' => submitSeq eventId s' rest
    | .error e => .error e

/-! Concrete traces used by the example theorems below. -/

/-- A fresh event: admin `0`, created at time `0`, target time `3600`,
one-hour window (`endTime = 3600`). -/
def exE1 : ContractState := applyOp initialState (.create 0 0 "BTC" 0 3600 1)

/-- Participant `5` submits cleartext `200` at time `10`. -/
def exE2 : ContractState := applyOp exE1 (.submit 5 10 0 200)

/-- The event is ended at time `3600`. -/
def exE3 : ContractState := applyOp exE2 (.endEvent 3600 0)

/-- The admin finalizes: request `1` is correlated with event `0`. -/
def exE4 : ContractState := applyOp exE3 (.finalize 0 0)

/-- The oracle callback delivers the decrypted sum `200`. -/
def exE5 : ContractState := applyOp exE4 (.callback 1 (oracleCleartexts 200))

/-- A 24-hour event created at time `0` with target time `86400`. -/
def exA1 : ContractState := applyOp initialState (.create 0 0 "BTC price" 0 86400 24)

/-- Scenario A submissions: `500000` by participant `1`, `520000` by
participant `2`. -/
def exA2 : ContractState := applyOp exA1 (.submit 1 5 0 500000)

def exA3 : ContractState := applyOp exA2 (.submit 2 5 0 520000)

def exA4 : ContractState := applyOp exA3 (.endEvent 86400 0)

def exA5 : ContractState := applyOp exA4 (.finalize 0 0)

def exA6 : ContractState :=
  applyOp exA5 (.callback 1 (oracleCleartexts (getEvent exA5 0).encryptedPriceSum))

/-- Wraparound trace: two submissions of `2^31` into the event of
`exA1`. -/
def exB2 : ContractState := applyOp exA1 (.submit 1 5 0 (2 ^ 31))

def exB3 : ContractState := applyOp exB2 (.submit 2 5 0 (2 ^ 31))

def exB4 : ContractState := applyOp exB3 (.endEvent 86400 0)

def exB5 : ContractState := applyOp exB4 (.finalize 0 0)

def exB6 : ContractState :=
  applyOp exB5 (.callback 1 (oracleCleartexts (getEvent exB5 0).encryptedPriceSum))

/-- Two further events and a pre-existing submission by participant `9`
on event `1`, used for the batch example. -/
def exC1 : ContractState := applyOp exE1 (.create 0 0 "E1" 0 3600 1)

def exC2 : ContractState := applyOp exC1 (.create 0 0 "E2" 0 3600 1)

def exC3 : ContractState := applyOp exC2 (.submit 9 5 1 100)

/-- State after creating an event with an empty title. -/
def exT : ContractState := applyOp initialState (.create 3 0 "" 0 10 1)

/-! The C9 counterexample: `2^32` submissions drive the `uint32` cast of
the divisor to zero. -/

/-- Event used by the divisor-truncation trace: admin `0`, created at
time `0`, target time `3600`, one-hour window. -/
def bigBase : ContractState := applyOp initialState (.create 0 0 "B" 0 3600 1)

/-- State after `n` successful value-`0` submissions by the distinct
participants `0, …, n-1`, all at time `1`. -/
def bigSubmit : Nat → ContractState
  | 0 => bigBase
  | n + 1 => applyOp (bigSubmit n) (.submit n 1 0 0)

/-- The single event of the trace after `n` submissions. -/
def evB (n : Nat) : PredictionEvent :=
  { title := "B", tokenType := 0, targetDate := 3600, endTime := 3600,
    isActive := true, isFinalized := false, admin := 0,
    totalPredictions := n, actualPrice := 0, encryptedPriceSum := 0,
    decryptedAveragePrice := 0 }

/-- The trace's event, ended. -/
def bigEnded : ContractState := applyOp (bigSubmit U32) (.endEvent 3600 0)

/-- The trace, finalized: request `1` is recorded for event `0` with
`totalPredictions = 2^32`. -/
def bigFinal : ContractState := applyOp bigEnded (.finalize 0 0)

/-! Inversion lemmas: the exact successful-call shape of each operation. -/

theorem createPredictionEvent_ok {s s' : ContractState} {sender now : Nat}
    {title : String} {tokenType targetDate durationInHours eventId : Nat}
    (h : createPredictionEvent s sender now title tokenType targetDate durationInHours
           = .ok (s', eventId)) :
    targetDate > now ∧ durationInHours > 0 ∧
    durationInHours * 3600 < U256 ∧
    now + durationInHours * 3600 < U256 ∧
    eventId = s.predictionEvents.length ∧
    s' = { s with predictionEvents := s.predictionEvents ++
            [{ title := title, tokenType := tokenType, targetDate := targetDate,
               endTime := now + durationInHours * 3600,
               isActive := true, isFinalized := false, admin := sender,
               totalPredictions := 0, actualPrice := 0,
               encryptedPriceSum := 0, decryptedAveragePrice := 0 }] } := by
  simp only [createPredictionEvent] at h
  split at h
  · exact Except.noConfusion h
  next h1 =>
    split at h
    · exact Except.noConfusion h
    next h2 =>
      split at h
      next h3 => exact Except.noConfusion h
      next h3 =>
        split at h
        next h4 => exact Except.noConfusion h
        next h4 =>
          injection h with h
          injection h with h hid
          exact ⟨by omega, by omega, by omega, by omega, hid.symm, h.symm⟩

theorem submitPrediction_ok {s s' : ContractState} {sender now eventId value : Nat}
    (h : submitPrediction s sender now eventId value = .ok s') :
    eventId < s.predictionEvents.length ∧
    (getEvent s eventId).isActive = true ∧
    now < (getEvent s eventId).endTime ∧
    (getEvent s eventId).isFinalized = false ∧
    (lookupPrediction s eventId sender).existsFlag = false ∧
    s' = { s with
      predictionEvents := s.predictionEvents.set eventId
        { getEvent s eventId with
          encryptedPriceSum :=
            if (getEvent s eventId).totalPredictions = 0 then value % U32
            else ((getEvent s eventId).encryptedPriceSum + value % U32) % U32
          totalPredictions := (getEvent s eventId).totalPredictions + 1 }
      userPredictions :=
        ((eventId, sender), ⟨value % U32, now, true⟩) :: s.userPredictions } := by
  simp only [submitPrediction] at h
  split at h
  · exact Except.noConfusion h
  next h1 =>
    split at h
    · exact Except.noConfusion h
    next h2 =>
      split at h
      · exact Except.noConfusion h
      next h3 =>
        split at h
        next h4 => exact Except.noConfusion h
        next h4 =>
          split at h
          next h5 => exact Except.noConfusion h
          next h5 =>
            injection h with h
            refine ⟨by omega, ?_, by omega, ?_, ?_, h.symm⟩
            · revert h2; cases (getEvent s eventId).isActive <;> simp
            · revert h4; cases (getEvent s eventId).isFinalized <;> simp
            · revert h5; cases (lookupPrediction s eventId sender).existsFlag <;> simp

theorem endPredictionEvent_ok {s s' : ContractState} {now eventId : Nat}
    (h : endPredictionEvent s now eventId = .ok s') :
    eventId < s.predictionEvents.length ∧
    (getEvent s eventId).isActive = true ∧
    now ≥ (getEvent s eventId).endTime ∧
    s' = { s with
      predictionEvents := s.predictionEvents.set eventId
        { getEvent s eventId with isActive := false } } := by
  simp only [endPredictionEvent] at h
  split at h
  · exact Except.noConfusion h
  next h1 =>
    split at h
    · exact Except.noConfusion h
    next h2 =>
      split at h
      · exact Except.noConfusion h
      next h3 =>
        injection h with h
        refine ⟨by omega, ?_, by omega, h.symm⟩
        revert h2; cases (getEvent s eventId).isActive <;> simp

theorem setActualPrice_ok {s s' : ContractState} {sender now eventId actualPrice : Nat}
    (h : setActualPrice s sender now eventId actualPrice = .ok s') :
    eventId < s.predictionEvents.length ∧
    (getEvent s eventId).admin = sender ∧
    now ≥ (getEvent s eventId).targetDate ∧
    actualPrice > 0 ∧
    s' = { s with
      predictionEvents := s.predictionEvents.set eventId
        { getEvent s eventId with actualPrice := actualPrice } } := by
  simp only [setActualPrice] at h
  split at h
  · exact Except.noConfusion h
  next h1 =>
    split at h
    next h2 => exact Except.noConfusion h
    next h2 =>
      split at h
      · exact Except.noConfusion h
      next h3 =>
        split at h
        · exact Except.noConfusion h
        next h4 =>
          injection h with h
          exact ⟨by omega, by omega, by omega, by omega, h.symm⟩

theorem finalizePredictionEvent_ok {s s' : ContractState} {sender eventId requestId : Nat}
    (h : finalizePredictionEvent s sender eventId = .ok (s', requestId)) :
    eventId < s.predictionEvents.length ∧
    (getEvent s eventId).admin = sender ∧
    (getEvent s eventId).isActive = false ∧
    (getEvent s eventId).isFinalized = false ∧
    0 < (getEvent s eventId).totalPredictions ∧
    requestId = s.nextRequestId ∧
    s' = { s with
      requestToEvent := (s.nextRequestId, eventId) :: s.requestToEvent
      nextRequestId := s.nextRequestId + 1 } := by
  simp only [finalizePredictionEvent] at h
  split at h
  · exact Except.noConfusion h
  next h1 =>
    split at h
    next h2 => exact Except.noConfusion h
    next h2 =>
      split at h
      next h3 => exact Except.noConfusion h
      next h3 =>
        split at h
        next h4 => exact Except.noConfusion h
        next h4 =>
          split at h
          next h5 => exact Except.noConfusion h
          next h5 =>
            injection h with h
            injection h with h hrid
            refine ⟨by omega, by omega, ?_, ?_, by omega, hrid.symm, h.symm⟩
            · revert h3; cases (getEvent s eventId).isActive <;> simp
            · revert h4; cases (getEvent s eventId).isFinalized <;> simp

theorem decryptionCallback_ok {s s' : ContractState} {requestId : Nat}
    {cleartexts : List Nat}
    (h : decryptionCallback s requestId cleartexts = .ok s') :
    lookupRequest s requestId < s.predictionEvents.length ∧
    (getEvent s (lookupRequest s requestId)).isFinalized = false ∧
    (getEvent s (lookupRequest s requestId)).isActive = false ∧
    cleartexts.length ≥ 4 ∧
    (getEvent s (lookupRequest s requestId)).totalPredictions % U32 ≠ 0 ∧
    s' = { s with
      predictionEvents := s.predictionEvents.set (lookupRequest s requestId)
        { getEvent s (lookupRequest s requestId) with
          decryptedAveragePrice := parseU32BE cleartexts /
            ((getEvent s (lookupRequest s requestId)).totalPredictions % U32)
          isFinalized := true } } := by
  simp only [decryptionCallback] at h
  split at h
  · exact Except.noConfusion h
  next h1 =>
    split at h
    next h2 => exact Except.noConfusion h
    next h2 =>
      split at h
      next h3 => exact Except.noConfusion h
      next h3 =>
        split at h
        · exact Except.noConfusion h
        next h4 =>
          split at h
          next h5 => exact Except.noConfusion h
          next h5 =>
            injection h with h
            refine ⟨by omega, ?_, ?_, by omega, h5, h.symm⟩
            · revert h2; cases (getEvent s (lookupRequest s requestId)).isFinalized <;> simp
            · revert h3; cases (getEvent s (lookupRequest s requestId)).isActive <;> simp

/-! List access helpers for the storage array. -/

theorem getEvent_mk (evs : List PredictionEvent)
    (ups : List ((Nat × Nat) × UserPrediction)) (reqs : List (Nat × Nat))
    (n i : Nat) : getEvent (ContractState.mk evs ups reqs n) i = evs.getD i default :=
  rfl

theorem getD_set_eq {α : Type} {l : List α} {i : Nat} (a d : α)
    (h : i < l.length) : (l.set i a).getD i d = a := by
  simp [List.getD, List.getElem?_set, h]

theorem getD_set_ne {α : Type} {l : List α} {i j : Nat} (a d : α)
    (hne : i ≠ j) : (l.set i a).getD j d = l.getD j d := by
  simp [List.getD, List.getElem?_set, hne]

theorem getD_append_left {α : Type} {l : List α} {i : Nat} (a d : α)
    (h : i < l.length) : (l ++ [a]).getD i d = l.getD i d := by
  simp [List.getD, List.getElem?_append_left, h]

theorem getD_append_right {α : Type} (l : List α) (a d : α) :
    (l ++ [a]).getD l.length d = a := by
  simp [List.getD]

/-! The batch loop is exactly the sequential composition of single
submissions, with the duplicate-submission message renamed. -/

theorem submitBatchLoop_eq (sender now : Nat) (items : List (Nat × Nat)) :
    ∀ s : ContractState,
      submitBatchLoop sender now s items
        = (submitFold sender now s items).mapError batchErr := by
  induction items with
  | nil => intro s; rfl
  | cons item rest ih =>
    intro s
    obtain ⟨eventId, value⟩ := item
    simp only [submitBatchLoop, submitFold, submitPrediction]
    split
    · rfl
    · split
      · rfl
      · split
        · rfl
        · split
          · rfl
          · split
            · rfl
            · exact ih _

/-- Successful batches factor through successful single submissions. -/
theorem submitBatchPredictions_ok {s s' : ContractState} {sender now : Nat}
    {eventIds values : List Nat} {inputProofs : List Unit}
    (h : submitBatchPredictions s sender now eventIds values inputProofs = .ok s') :
    eventIds.length = values.length ∧ eventIds.length = inputProofs.length ∧
    0 < eventIds.length ∧ eventIds.length ≤ 10 ∧
    submitFold sender now s (eventIds.zip values) = .ok s' := by
  unfold submitBatchPredictions at h
  split at h
  · exact Except.noConfusion h
  next h1 =>
    split at h
    · exact Except.noConfusion h
    next h2 =>
      split at h
      · exact Except.noConfusion h
      next h3 =>
        split at h
        · exact Except.noConfusion h
        next h4 =>
          rw [submitBatchLoop_eq] at h
          refine ⟨by omega, by omega, by omega, by omega, ?_⟩
          cases hf : submitFold sender now s (eventIds.zip values) with
          | ok t => rw [hf] at h; injection h with h; rw [h]
          | error e => rw [hf] at h; exact Except.noConfusion h

/-- Effect envelope of a successful sequence of single submissions: the
event count is unchanged, the request table and the gateway counter are
untouched, every event keeps its lifecycle flags and its admin while its
submission counter only grows, and every ledger entry is either an old
one or keyed by an existing event. -/
theorem submitFold_ok {sender now : Nat} {items : List (Nat × Nat)}
    {s s' : ContractState}
    (h : submitFold sender now s items = .ok s') :
    s'.predictionEvents.length = s.predictionEvents.length ∧
    s'.requestToEvent = s.requestToEvent ∧
    s'.nextRequestId = s.nextRequestId ∧
    (∀ i, i < s.predictionEvents.length →
      (getEvent s' i).isActive = (getEvent s i).isActive ∧
      (getEvent s' i).isFinalized = (getEvent s i).isFinalized ∧
      (getEvent s' i).admin = (getEvent s i).admin ∧
      (getEvent s i).totalPredictions ≤ (getEvent s' i).totalPredictions) ∧
    (∀ q ∈ s'.userPredictions,
      q ∈ s.userPredictions ∨ q.1.1 < s.predictionEvents.length) := by
  induction items generalizing s with
  | nil =>
    injection h with h
    subst h
    exact ⟨rfl, rfl, rfl, fun i _ => ⟨rfl, rfl, rfl, le_refl _⟩, fun q hq => .inl hq⟩
  | cons item rest ih =>
    obtain ⟨eventId, value⟩ := item
    unfold submitFold at h
    cases hsub : submitPrediction s sender now eventId value with
    | error e => rw [hsub] at h; exact Except.noConfusion h
    | ok s1 =>
      rw [hsub] at h
      obtain ⟨hlt, _hact, _hend, _hfin, _hdup, hshape⟩ := submitPrediction_ok hsub
      obtain ⟨ihlen, ihreq, ihnext, ihev, ihpred⟩ := ih h
      subst hshape
      simp only [List.length_set] at ihlen ihev
      refine ⟨ihlen, ihreq, ihnext, ?_, ?_⟩
      · intro i hi
        obtain ⟨ha, hf, hadm, hcnt⟩ := ihev i hi
        simp only [getEvent] at ha hf hadm hcnt ⊢
        by_cases hieq : eventId = i
        · subst hieq
          rw [getD_set_eq _ _ hlt] at ha hf hadm hcnt
          exact ⟨ha, hf, hadm, le_trans (Nat.le_succ _) hcnt⟩
        · rw [getD_set_ne _ _ hieq] at ha hf hadm hcnt
          exact ⟨ha, hf, hadm, hcnt⟩
      · intro q hq
        rcases ihpred q hq with hmem | hlt2
        · rcases List.mem_cons.mp hmem with hq1 | hq2
          · right; rw [hq1]; exact hlt
          · left; exact hq2
        · right
          simpa [List.length_set] using hlt2

theorem getEvent_set_state (s : ContractState) (k : Nat) (ev' : PredictionEvent)
    (ups : List ((Nat × Nat) × UserPrediction)) (reqs : List (Nat × Nat))
    (n i : Nat) (hk : k < s.predictionEvents.length) :
    getEvent (ContractState.mk (s.predictionEvents.set k ev') ups reqs n) i
      = if k = i then ev' else getEvent s i := by
  simp only [getEvent]
  by_cases hieq : k = i
  · subst hieq; rw [if_pos rfl, getD_set_eq _ _ hk]
  · rw [if_neg hieq, getD_set_ne _ _ hieq]

theorem getEvent_append_state (s : ContractState) (ev : PredictionEvent)
    (ups : List ((Nat × Nat) × UserPrediction)) (reqs : List (Nat × Nat))
    (n i : Nat) (hi : i < s.predictionEvents.length) :
    getEvent (ContractState.mk (s.predictionEvents ++ [ev]) ups reqs n) i
      = getEvent s i := by
  simp only [getEvent]
  exact getD_append_left _ _ hi

/-- Per-invocation event evolution: the registry only grows, a
submission counter never decreases, `isActive` is never set back to
`true`, `isFinalized` is never cleared, and a single invocation never
finalizes an event that was still active when the invocation started. -/
theorem applyOp_step (s : ContractState) (op : Op) (i : Nat)
    (hi : i < s.predictionEvents.length) :
    i < (applyOp s op).predictionEvents.length ∧
    (getEvent s i).totalPredictions ≤ (getEvent (applyOp s op) i).totalPredictions ∧
    ((getEvent (applyOp s op) i).isActive = true → (getEvent s i).isActive = true) ∧
    ((getEvent s i).isFinalized = true → (getEvent (applyOp s op) i).isFinalized = true) ∧
    ((getEvent s i).isActive = true →
      (getEvent (applyOp s op) i).isFinalized = (getEvent s i).isFinalized) := by
  cases op with
  | create sender now title tokenType targetDate durationInHours =>
    simp only [applyOp]
    cases hres : createPredictionEvent s sender now title tokenType targetDate
        durationInHours with
    | error e => exact ⟨hi, le_refl _, fun h => h, fun h => h, fun _ => rfl⟩
    | ok p =>
      obtain ⟨s1, eid⟩ := p
      obtain ⟨_h1, _h2, _h3, _h4, _h5, hshape⟩ := createPredictionEvent_ok hres
      subst hshape
      rw [getEvent_append_state _ _ _ _ _ _ hi]
      refine ⟨?_, le_refl _, fun h => h, fun h => h, fun _ => rfl⟩
      simp only [List.length_append, List.length_cons, List.length_nil]
      omega
  | submit sender now eventId value =>
    simp only [applyOp]
    cases hres : submitPrediction s sender now eventId value with
    | error e => exact ⟨hi, le_refl _, fun h => h, fun h => h, fun _ => rfl⟩
    | ok s1 =>
      obtain ⟨hlt, _hact, _hend, _hfin, _hdup, hshape⟩ := submitPrediction_ok hres
      subst hshape
      rw [getEvent_set_state _ _ _ _ _ _ _ hlt]
      by_cases hieq : eventId = i
      · subst hieq
        rw [if_pos rfl]
        exact ⟨by simpa [List.length_set] using hi, Nat.le_succ _,
          fun h => h, fun h => h, fun _ => rfl⟩
      · rw [if_neg hieq]
        exact ⟨by simpa [List.length_set] using hi, le_refl _,
          fun h => h, fun h => h, fun _ => rfl⟩
  | batch sender now eventIds values inputProofs =>
    simp only [applyOp]
    cases hres : submitBatchPredictions s sender now eventIds values inputProofs with
    | error e => exact ⟨hi, le_refl _, fun h => h, fun h => h, fun _ => rfl⟩
    | ok s1 =>
      obtain ⟨_g1, _g2, _g3, _g4, hfold⟩ := submitBatchPredictions_ok hres
      obtain ⟨hlen, _hreq, _hnext, hev, _hpred⟩ := submitFold_ok hfold
      obtain ⟨ha, hf, _hadm, hcnt⟩ := hev i hi
      refine ⟨by rw [hlen]; exact hi, hcnt, ?_, ?_, fun _ => hf⟩
      · intro h; rw [← ha]; exact h
      · intro h; rw [hf]; exact h
  | endEvent now eventId =>
    simp only [applyOp]
    cases hres : endPredictionEvent s now eventId with
    | error e => exact ⟨hi, le_refl _, fun h => h, fun h => h, fun _ => rfl⟩
    | ok s1 =>
      obtain ⟨hlt, _hact, _hend, hshape⟩ := endPredictionEvent_ok hres
      subst hshape
      rw [getEvent_set_state _ _ _ _ _ _ _ hlt]
      by_cases hieq : eventId = i
      · subst hieq
        rw [if_pos rfl]
        exact ⟨by simpa [List.length_set] using hi, le_refl _,
          fun h => Bool.noConfusion h, fun h => h, fun _ => rfl⟩
      · rw [if_neg hieq]
        exact ⟨by simpa [List.length_set] using hi, le_refl _,
          fun h => h, fun h => h, fun _ => rfl⟩
  | setPrice sender now eventId actualPrice =>
    simp only [applyOp]
    cases hres : setActualPrice s sender now eventId actualPrice with
    | error e => exact ⟨hi, le_refl _, fun h => h, fun h => h, fun _ => rfl⟩
    | ok s1 =>
      obtain ⟨hlt, _hadm, _htgt, _hpos, hshape⟩ := setActualPrice_ok hres
      subst hshape
      rw [getEvent_set_state _ _ _ _ _ _ _ hlt]
      by_cases hieq : eventId = i
      · subst hieq
        rw [if_pos rfl]
        exact ⟨by simpa [List.length_set] using hi, le_refl _,
          fun h => h, fun h => h, fun _ => rfl⟩
      · rw [if_neg hieq]
        exact ⟨by simpa [List.length_set] using hi, le_refl _,
          fun h => h, fun h => h, fun _ => rfl⟩
  | finalize sender eventId =>
    simp only [applyOp]
    cases hres : finalizePredictionEvent s sender eventId with
    | error e => exact ⟨hi, le_refl _, fun h => h, fun h => h, fun _ => rfl⟩
    | ok p =>
      obtain ⟨s1, rid⟩ := p
      obtain ⟨_h1, _h2, _h3, _h4, _h5, _h6, hshape⟩ := finalizePredictionEvent_ok hres
      subst hshape
      exact ⟨hi, le_refl _, fun h => h, fun h => h, fun _ => rfl⟩
  | callback requestId cleartexts =>
    simp only [applyOp]
    cases hres : decryptionCallback s requestId cleartexts with
    | error e => exact ⟨hi, le_refl _, fun h => h, fun h => h, fun _ => rfl⟩
    | ok s1 =>
      obtain ⟨hlt, _hfin, hact0, _hlen, _hnz, hshape⟩ := decryptionCallback_ok hres
      subst hshape
      rw [getEvent_set_state _ _ _ _ _ _ _ hlt]
      by_cases hieq : lookupRequest s requestId = i
      · subst hieq
        rw [if_pos rfl]
        refine ⟨by simpa [List.length_set] using hi, le_refl _,
          fun h => h, fun _ => rfl, ?_⟩
        intro h
        rw [hact0] at h
        exact Bool.noConfusion h
      · rw [if_neg hieq]
        exact ⟨by simpa [List.length_set] using hi, le_refl _,
          fun h => h, fun h => h, fun _ => rfl⟩

theorem inv_init : Inv initialState := by
  refine ⟨?_, ?_, ?_, ?_⟩
  · intro i hi
    exact absurd hi (Nat.not_lt_zero i)
  · intro p hp
    exact absurd hp (List.not_mem_nil p)
  · exact List.nodup_nil
  · intro q hq
    exact absurd hq (List.not_mem_nil q)

theorem applyOp_inv {s : ContractState} (op : Op) (hinv : Inv s) :
    Inv (applyOp s op) := by
  obtain ⟨hev, hreq, hnodup, hpred⟩ := hinv
  cases op with
  | create sender now title tokenType targetDate durationInHours =>
    simp only [applyOp]
    cases hres : createPredictionEvent s sender now title tokenType targetDate
        durationInHours with
    | error e => exact ⟨hev, hreq, hnodup, hpred⟩
    | ok p =>
      obtain ⟨s1, eid⟩ := p
      obtain ⟨_h1, _h2, _h3, _h4, _h5, hshape⟩ := createPredictionEvent_ok hres
      subst hshape
      refine ⟨?_, ?_, hnodup, ?_⟩
      · intro i hilen hfin
        by_cases hi : i < s.predictionEvents.length
        · rw [getEvent_append_state _ _ _ _ _ _ hi] at hfin ⊢
          exact hev i hi hfin
        · have hieq : i = s.predictionEvents.length := by
            simp only [List.length_append, List.length_cons, List.length_nil] at hilen
            omega
          subst hieq
          have hlast : getEvent (ContractState.mk
              (s.predictionEvents ++
                [{ title := title, tokenType := tokenType, targetDate := targetDate,
                   endTime := now + durationInHours * 3600,
                   isActive := true, isFinalized := false, admin := sender,
                   totalPredictions := 0, actualPrice := 0,
                   encryptedPriceSum := 0, decryptedAveragePrice := 0 }])
              s.userPredictions s.requestToEvent s.nextRequestId)
              s.predictionEvents.length
              = { title := title, tokenType := tokenType, targetDate := targetDate,
                  endTime := now + durationInHours * 3600,
                  isActive := true, isFinalized := false, admin := sender,
                  totalPredictions := 0, actualPrice := 0,
                  encryptedPriceSum := 0, decryptedAveragePrice := 0 } := by
            simp only [getEvent]
            exact getD_append_right _ _ _
          rw [hlast] at hfin
          exact Bool.noConfusion hfin
      · intro p hp
        obtain ⟨h1, h2, h3⟩ := hreq p hp
        refine ⟨h1, ?_, ?_⟩
        · simp only [List.length_append, List.length_cons, List.length_nil]
          omega
        · rw [getEvent_append_state _ _ _ _ _ _ h2]
          exact h3
      · intro q hq
        have := hpred q hq
        simp only [List.length_append, List.length_cons, List.length_nil]
        omega
  | submit sender now eventId value =>
    simp only [applyOp]
    cases hres : submitPrediction s sender now eventId value with
    | error e => exact ⟨hev, hreq, hnodup, hpred⟩
    | ok s1 =>
      obtain ⟨hlt, _hact, _hend, _hfin, _hdup, hshape⟩ := submitPrediction_ok hres
      subst hshape
      refine ⟨?_, ?_, hnodup, ?_⟩
      · intro i hilen hfin
        rw [getEvent_set_state _ _ _ _ _ _ _ hlt] at hfin ⊢
        by_cases hieq : eventId = i
        · subst hieq
          rw [if_pos rfl] at hfin ⊢
          exact hev eventId hlt hfin
        · rw [if_neg hieq] at hfin ⊢
          exact hev i (by simpa [List.length_set] using hilen) hfin
      · intro p hp
        obtain ⟨h1, h2, h3⟩ := hreq p hp
        refine ⟨h1, by simpa [List.length_set] using h2, ?_⟩
        rw [getEvent_set_state _ _ _ _ _ _ _ hlt]
        by_cases hieq : eventId = p.2
        · rw [if_pos hieq]
          exact Nat.succ_pos _
        · rw [if_neg hieq]
          exact h3
      · intro q hq
        rcases List.mem_cons.mp hq with hq1 | hq2
        · rw [hq1]
          simpa [List.length_set] using hlt
        · have := hpred q hq2
          simpa [List.length_set] using this
  | batch sender now eventIds values inputProofs =>
    simp only [applyOp]
    cases hres : submitBatchPredictions s sender now eventIds values inputProofs with
    | error e => exact ⟨hev, hreq, hnodup, hpred⟩
    | ok s1 =>
      obtain ⟨_g1, _g2, _g3, _g4, hfold⟩ := submitBatchPredictions_ok hres
      obtain ⟨hlen, hreqeq, hnexteq, hevf, hpredf⟩ := submitFold_ok hfold
      refine ⟨?_, ?_, ?_, ?_⟩
      · intro i hilen hfin
        have hi : i < s.predictionEvents.length := by rw [← hlen]; exact hilen
        obtain ⟨ha, hf, _hadm, _hcnt⟩ := hevf i hi
        rw [hf] at hfin
        rw [ha]
        exact hev i hi hfin
      · intro p hp
        rw [hreqeq] at hp
        obtain ⟨h1, h2, h3⟩ := hreq p hp
        obtain ⟨_ha, _hf, _hadm, hcnt⟩ := hevf p.2 h2
        exact ⟨by rw [hnexteq]; exact h1, by rw [hlen]; exact h2,
          lt_of_lt_of_le h3 hcnt⟩
      · unfold RequestKeysNodup at hnodup ⊢
        rw [hreqeq]
        exact hnodup
      · intro q hq
        rcases hpredf q hq with hold | hb
        · have := hpred q hold
          rw [hlen]
          exact this
        · rw [hlen]
          exact hb
  | endEvent now eventId =>
    simp only [applyOp]
    cases hres : endPredictionEvent s now eventId with
    | error e => exact ⟨hev, hreq, hnodup, hpred⟩
    | ok s1 =>
      obtain ⟨hlt, _hact, _hend, hshape⟩ := endPredictionEvent_ok hres
      subst hshape
      refine ⟨?_, ?_, hnodup, ?_⟩
      · intro i hilen hfin
        rw [getEvent_set_state _ _ _ _ _ _ _ hlt] at hfin ⊢
        by_cases hieq : eventId = i
        · rw [if_pos hieq] at hfin ⊢
        · rw [if_neg hieq] at hfin ⊢
          exact hev i (by simpa [List.length_set] using hilen) hfin
      · intro p hp
        obtain ⟨h1, h2, h3⟩ := hreq p hp
        refine ⟨h1, by simpa [List.length_set] using h2, ?_⟩
        rw [getEvent_set_state _ _ _ _ _ _ _ hlt]
        by_cases hieq : eventId = p.2
        · rw [if_pos hieq, hieq]
          exact h3
        · rw [if_neg hieq]
          exact h3
      · intro q hq
        have := hpred q hq
        simpa [List.length_set] using this
  | setPrice sender now eventId actualPrice =>
    simp only [applyOp]
    cases hres : setActualPrice s sender now eventId actualPrice with
    | error e => exact ⟨hev, hreq, hnodup, hpred⟩
    | ok s1 =>
      obtain ⟨hlt, _hadm, _htgt, _hpos, hshape⟩ := setActualPrice_ok hres
      subst hshape
      refine ⟨?_, ?_, hnodup, ?_⟩
      · intro i hilen hfin
        rw [getEvent_set_state _ _ _ _ _ _ _ hlt] at hfin ⊢
        by_cases hieq : eventId = i
        · rw [if_pos hieq] at hfin ⊢
          subst hieq
          exact hev eventId hlt hfin
        · rw [if_neg hieq] at hfin ⊢
          exact hev i (by simpa [List.length_set] using hilen) hfin
      · intro p hp
        obtain ⟨h1, h2, h3⟩ := hreq p hp
        refine ⟨h1, by simpa [List.length_set] using h2, ?_⟩
        rw [getEvent_set_state _ _ _ _ _ _ _ hlt]
        by_cases hieq : eventId = p.2
        · rw [if_pos hieq, hieq]
          exact h3
        · rw [if_neg hieq]
          exact h3
      · intro q hq
        have := hpred q hq
        simpa [List.length_set] using this
  | finalize sender eventId =>
    simp only [applyOp]
    cases hres : finalizePredictionEvent s sender eventId with
    | error e => exact ⟨hev, hreq, hnodup, hpred⟩
    | ok p =>
      obtain ⟨s1, rid⟩ := p
      obtain ⟨hlt, _hadm, _hact, _hfin, hcnt, _hrid, hshape⟩ :=
        finalizePredictionEvent_ok hres
      subst hshape
      refine ⟨?_, ?_, ?_, ?_⟩
      · intro i hilen hfin
        exact hev i hilen hfin
      · intro p hp
        rcases List.mem_cons.mp hp with hp1 | hp2
        · rw [hp1]
          exact ⟨Nat.lt_succ_self _, hlt, hcnt⟩
        · obtain ⟨h1, h2, h3⟩ := hreq p hp2
          exact ⟨Nat.lt_succ_of_lt h1, h2, h3⟩
      · unfold RequestKeysNodup at hnodup ⊢
        simp only [List.map_cons]
        refine List.nodup_cons.mpr ⟨?_, hnodup⟩
        intro hmem
        obtain ⟨p, hpmem, hpfst⟩ := List.mem_map.mp hmem
        obtain ⟨h1, _h2, _h3⟩ := hreq p hpmem
        omega
      · intro q hq
        exact hpred q hq
  | callback requestId cleartexts =>
    simp only [applyOp]
    cases hres : decryptionCallback s requestId cleartexts with
    | error e => exact ⟨hev, hreq, hnodup, hpred⟩
    | ok s1 =>
      obtain ⟨hlt, _hfin, hact0, _hlen, _hnz, hshape⟩ := decryptionCallback_ok hres
      subst hshape
      refine ⟨?_, ?_, hnodup, ?_⟩
      · intro i hilen hfin
        rw [getEvent_set_state _ _ _ _ _ _ _ hlt] at hfin ⊢
        by_cases hieq : lookupRequest s requestId = i
        · rw [if_pos hieq] at hfin ⊢
          exact hact0
        · rw [if_neg hieq] at hfin ⊢
          exact hev i (by simpa [List.length_set] using hilen) hfin
      · intro p hp
        obtain ⟨h1, h2, h3⟩ := hreq p hp
        refine ⟨h1, by simpa [List.length_set] using h2, ?_⟩
        rw [getEvent_set_state _ _ _ _ _ _ _ hlt]
        by_cases hieq : lookupRequest s requestId = p.2
        · rw [if_pos hieq, hieq]
          exact h3
        · rw [if_neg hieq]
          exact h3
      · intro q hq
        have := hpred q hq
        simpa [List.length_set] using this

/-- Every reachable state satisfies all the invariants. -/
theorem reachable_inv {s : ContractState} (h : Reachable s) : Inv s := by
  induction h with
  | init => exact inv_init
  | step op _ ih => exact applyOp_inv op ih

/-! Further lookup and arithmetic helpers. -/

theorem U32_eq : U32 = 4294967296 := by decide

theorem parseU32BE_oracle (x : Nat) :
    parseU32BE (oracleCleartexts x) = x % U32 := by
  simp only [parseU32BE, oracleCleartexts, U32_eq]
  omega

theorem oracleCleartexts_length (x : Nat) : (oracleCleartexts x).length = 4 := rfl

/-- Right after a successful submission, the ledger holds the entry for
the submitting pair. -/
theorem lookupPrediction_after_submit {s s' : ContractState}
    {sender now eventId value : Nat}
    (hok : submitPrediction s sender now eventId value = .ok s') :
    (lookupPrediction s' eventId sender).existsFlag = true := by
  obtain ⟨_h1, _h2, _h3, _h4, _h5, hshape⟩ := submitPrediction_ok hok
  subst hshape
  simp [lookupPrediction]

/-- In an association list with pairwise-distinct keys, a recorded entry
is what the mapping read returns. -/
theorem find_assoc_of_mem {l : List (Nat × Nat)} {r e : Nat}
    (hnodup : (l.map Prod.fst).Nodup) (hmem : (r, e) ∈ l) :
    ((l.find? (fun q => q.1 == r)).map Prod.snd).getD 0 = e := by
  induction l with
  | nil => cases hmem
  | cons p rest ih =>
    rcases List.mem_cons.mp hmem with h1 | h2
    · rw [← h1]
      simp [List.find?]
    · have hr : r ∈ rest.map Prod.fst := List.mem_map.mpr ⟨(r, e), h2, rfl⟩
      rw [List.map_cons] at hnodup
      have hok := List.nodup_cons.mp hnodup
      have hne : ¬ (p.1 == r) = true := by
        intro hb
        have hpr : p.1 = r := by simpa using hb
        exact hok.1 (hpr ▸ hr)
      rw [List.find?_cons_of_neg]
      · exact ih hok.2 h2
      · exact hne

/-- A recorded correlation with pairwise-distinct keys is what the
mapping read returns. -/
theorem lookupRequest_of_mem {s : ContractState} {r e : Nat}
    (hnodup : RequestKeysNodup s) (hmem : (r, e) ∈ s.requestToEvent) :
    lookupRequest s r = e :=
  find_assoc_of_mem hnodup hmem

/-- Effect of a successful submission history on the target event: the
counter grows by the number of submissions and the 32-bit ciphertext
accumulates their values modulo `2^32` (the first value seeds the sum,
later ones are added with wraparound). -/
theorem submitSeq_ok {eventId : Nat} {subs : List (Nat × Nat × Nat)}
    {s s' : ContractState}
    (h : submitSeq eventId s subs = .ok s')
    (he : eventId < s.predictionEvents.length)
    (h0 : (getEvent s eventId).totalPredictions = 0 →
      (getEvent s eventId).encryptedPriceSum = 0)
    (hsumlt : (getEvent s eventId).encryptedPriceSum < U32) :
    s'.predictionEvents.length = s.predictionEvents.length ∧
    (getEvent s' eventId).totalPredictions
      = (getEvent s eventId).totalPredictions + subs.length ∧
    (getEvent s' eventId).encryptedPriceSum
      = ((getEvent s eventId).encryptedPriceSum
          + (subs.map (fun x => x.2.2)).sum) % U32 := by
  induction subs generalizing s with
  | nil =>
    injection h with h
    subst h
    refine ⟨rfl, rfl, ?_⟩
    simp [Nat.mod_eq_of_lt hsumlt]
  | cons sub rest ih =>
    obtain ⟨sender, now, value⟩ := sub
    unfold submitSeq at h
    cases hsub : submitPrediction s sender now eventId value with
    | error e =>
      rw [hsub] at h
      exact Except.noConfusion h
    | ok s1 =>
      rw [hsub] at h
      obtain ⟨hlt0, _ha, _hb, _hc, _hd, hshape⟩ := submitPrediction_ok hsub
      have hlen1 : s1.predictionEvents.length = s.predictionEvents.length := by
        rw [hshape]
        exact List.length_set _ _ _
      have hget1 : getEvent s1 eventId
          = { getEvent s eventId with
              encryptedPriceSum :=
                if (getEvent s eventId).totalPredictions = 0 then value % U32
                else ((getEvent s eventId).encryptedPriceSum + value % U32) % U32
              totalPredictions := (getEvent s eventId).totalPredictions + 1 } := by
        rw [hshape, getEvent_set_state _ _ _ _ _ _ _ hlt0, if_pos rfl]
      obtain ⟨ihlen, ihcnt, ihsum⟩ := ih h (by rw [hlen1]; exact he)
        (by simp only [hget1]; intro hx; omega)
        (by
          simp only [hget1]
          split
          · exact Nat.mod_lt _ (by rw [U32_eq]; omega)
          · exact Nat.mod_lt _ (by rw [U32_eq]; omega))
      simp only [hget1] at ihcnt ihsum
      refine ⟨by rw [ihlen, hlen1], ?_, ?_⟩
      · rw [ihcnt]
        simp only [List.length_cons]
        omega
      · simp only [List.map_cons, List.sum_cons]
        by_cases hc : (getEvent s eventId).totalPredictions = 0
        · rw [ihsum, if_pos hc, h0 hc, U32_eq]
          omega
        · rw [ihsum, if_neg hc, U32_eq]
          omega

theorem reachable_exE1 : Reachable exE1 :=
  Reachable.step _ Reachable.init

theorem reachable_exE3 : Reachable exE3 :=
  Reachable.step _ (Reachable.step _ reachable_exE1)

theorem reachable_exE5 : Reachable exE5 :=
  Reachable.step _ (Reachable.step _ reachable_exE3)

/-! Claim C1. -/

/-- C1 (amended): for an event that starts with no submissions, after a
successful submission history with cleartext values `v1..vn`, ending,
finalization, and the oracle callback carrying the decrypted 32-bit sum,
the stored revealed average is
`floor(((v1 + ... + vn) mod 2^32) / (n mod 2^32))` — truncating integer
division, with the confidential sum seeded by the first value and each
later value added homomorphically modulo `2^32`, and the divisor cast to
`uint32`.  When the sum and `n` are below `2^32` this is exactly
`floor((v1 + ... + vn) / n)`. -/
theorem C1_average (s₀ s₁ s₂ s₃ s₄ : ContractState) (e : Nat)
    (subs : List (Nat × Nat × Nat)) (endNow finSender rid : Nat)
    (he : e < s₀.predictionEvents.length)
    (hcnt0 : (getEvent s₀ e).totalPredictions = 0)
    (hsum0 : (getEvent s₀ e).encryptedPriceSum = 0)
    (hsubs : submitSeq e s₀ subs = .ok s₁)
    (hend : endPredictionEvent s₁ endNow e = .ok s₂)
    (hfin : finalizePredictionEvent s₂ finSender e = .ok (s₃, rid))
    (hcb : decryptionCallback s₃ rid
        (oracleCleartexts (getEvent s₃ e).encryptedPriceSum) = .ok s₄) :
    (getEvent s₄ e).decryptedAveragePrice
      = ((subs.map (fun x => x.2.2)).sum % U32) / (subs.length % U32) := by
  obtain ⟨hlen1, hcnt1, hsum1⟩ := submitSeq_ok hsubs he (fun _ => hsum0)
    (by rw [hsum0, U32_eq]; omega)
  obtain ⟨hlt1, _hact1, _hend1, hshape2⟩ := endPredictionEvent_ok hend
  obtain ⟨hlt2, _hadm, _hact2, _hfin2, _hcnt2, hrid, hshape3⟩ :=
    finalizePredictionEvent_ok hfin
  obtain ⟨hlt3, _hf3, _ha3, _hc3, _hnz3, hshape4⟩ := decryptionCallback_ok hcb
  have hget2 : getEvent s₂ e = { getEvent s₁ e with isActive := false } := by
    rw [hshape2, getEvent_set_state _ _ _ _ _ _ _ hlt1, if_pos rfl]
  have hget3 : ∀ i, getEvent s₃ i = getEvent s₂ i := by
    intro i
    rw [hshape3]
    rfl
  have hlook : lookupRequest s₃ rid = e := by
    rw [hshape3, hrid]
    simp [lookupRequest, List.find?]
  rw [hlook] at hshape4 hlt3
  have hget4 : getEvent s₄ e
      = { getEvent s₃ e with
          decryptedAveragePrice :=
            parseU32BE (oracleCleartexts (getEvent s₃ e).encryptedPriceSum)
              / ((getEvent s₃ e).totalPredictions % U32)
          isFinalized := true } := by
    rw [hshape4, getEvent_set_state _ _ _ _ _ _ _ hlt3, if_pos rfl]
  simp only [hget4, hget3, hget2, parseU32BE_oracle]
  rw [hsum1, hcnt1, hcnt0, hsum0]
  congr 1
  · rw [U32_eq]
    omega
  · rw [U32_eq]
    omega

/-- The C1 claim as stated is refuted by 32-bit wraparound: two
submissions of `2^31` drive the confidential sum to `0`, the callback
completes, and the stored average is `0`, not
`floor((2^31 + 2^31) / 2) = 2^31`. -/
theorem C1_counterexample :
    submitPrediction exA1 1 5 0 (2 ^ 31) = .ok exB2 ∧
    submitPrediction exB2 2 5 0 (2 ^ 31) = .ok exB3 ∧
    endPredictionEvent exB3 86400 0 = .ok exB4 ∧
    finalizePredictionEvent exB4 0 0 = .ok (exB5, 1) ∧
    decryptionCallback exB5 1
      (oracleCleartexts (getEvent exB5 0).encryptedPriceSum) = .ok exB6 ∧
    (getEvent exB6 0).isFinalized = true ∧
    (getEvent exB6 0).totalPredictions = 2 ∧
    (getEvent exB6 0).decryptedAveragePrice = 0 ∧
    (2 ^ 31 + 2 ^ 31) / 2 = 2 ^ 31 ∧
    (getEvent exB6 0).decryptedAveragePrice ≠ (2 ^ 31 + 2 ^ 31) / 2 := by
  decide

/-- Scenario A instance of `C1_average`: submissions `500000` and
`520000` reveal the average `510000`. -/
theorem C1_average_witness :
    (getEvent exA6 0).decryptedAveragePrice
      = (([((1 : Nat), (5 : Nat), (500000 : Nat)),
           (2, 5, 520000)].map (fun x => x.2.2)).sum % U32) / (2 % U32) ∧
    (getEvent exA6 0).decryptedAveragePrice = 510000 :=
  ⟨C1_average exA1 exA3 exA4 exA5 exA6 0
      [(1, 5, 500000), (2, 5, 520000)] 86400 0 1
      (by decide) (by decide) (by decide) (by decide) (by decide) (by decide)
      (by decide),
   by decide⟩

/-! Claim C2. -/

/-- C2 (amended): after one successful submit for `(eventId, sender)`,
any second submit with the same pair fails (never returns `ok`) and
leaves the storage exactly as it was before the failed call; the failure
is `DuplicateSubmission` ("Already submitted prediction") whenever the
event is still inside its active window at the second call, and the
relevant lifecycle error otherwise. -/
theorem C2_single_submission (s s' : ContractState)
    (sender t1 eventId value : Nat)
    (hok : submitPrediction s sender t1 eventId value = .ok s') :
    (∀ t2 v2 s'', submitPrediction s' sender t2 eventId v2 ≠ .ok s'') ∧
    (∀ t2 v2, applyOp s' (.submit sender t2 eventId v2) = s') ∧
    (∀ t2 v2, (getEvent s' eventId).isActive = true →
      t2 < (getEvent s' eventId).endTime →
      (getEvent s' eventId).isFinalized = false →
      submitPrediction s' sender t2 eventId v2
        = .error .AlreadySubmittedPrediction) := by
  have hdup := lookupPrediction_after_submit hok
  have hlen : eventId < s'.predictionEvents.length := by
    obtain ⟨hlt, _h1, _h2, _h3, _h4, hshape⟩ := submitPrediction_ok hok
    rw [hshape]
    simpa [List.length_set] using hlt
  have hnotok : ∀ t2 v2 s'', submitPrediction s' sender t2 eventId v2 ≠ .ok s'' := by
    intro t2 v2 s'' hok2
    obtain ⟨_g1, _g2, _g3, _g4, hdup2, _g5⟩ := submitPrediction_ok hok2
    rw [hdup] at hdup2
    exact Bool.noConfusion hdup2
  refine ⟨hnotok, ?_, ?_⟩
  · intro t2 v2
    simp only [applyOp]
    cases hres : submitPrediction s' sender t2 eventId v2 with
    | ok t => exact absurd hres (hnotok t2 v2 t)
    | error e => rfl
  · intro t2 v2 hact hend hfin
    simp only [submitPrediction]
    rw [if_neg (not_not_intro hlen), if_neg (by simp [hact]),
      if_neg (not_not_intro hend), if_neg (by simp [hfin]), if_pos hdup]

/-- The C2 claim as stated is refuted once the event's window has
passed: the second submit by the same participant then fails with the
"Event has ended" lifecycle error, not `DuplicateSubmission`. -/
theorem C2_counterexample :
    submitPrediction exE1 5 10 0 200 = .ok exE2 ∧
    submitPrediction exE2 5 4000 0 300 = .error .EventHasEnded ∧
    Err.EventHasEnded ≠ Err.AlreadySubmittedPrediction ∧
    Err.kind .EventHasEnded ≠ ErrKind.DuplicateSubmission ∧
    applyOp exE2 (.submit 5 4000 0 300) = exE2 := by
  decide

/-- Instance of `C2_single_submission`: inside the active window the
duplicate is rejected with `DuplicateSubmission` and nothing changes. -/
theorem C2_witness :
    submitPrediction exE2 5 20 0 300 = .error .AlreadySubmittedPrediction ∧
    applyOp exE2 (.submit 5 20 0 300) = exE2 :=
  ⟨(C2_single_submission exE1 exE2 5 10 0 200 (by decide)).2.2 20 300
      (by decide) (by decide) (by decide),
   (C2_single_submission exE1 exE2 5 10 0 200 (by decide)).2.1 20 300⟩

/-! Claim C3. -/

/-- C3: in every reachable state a finalized event is not active, and no
single invocation reactivates an event, clears its finalized flag, or
moves it from active directly to finalized: the `(active, finalized)`
pair only moves forward along Active → Ended → Finalized. -/
theorem C3_lifecycle_monotone (s : ContractState) (hs : Reachable s) (op : Op)
    (i : Nat) (hi : i < s.predictionEvents.length) :
    ((getEvent s i).isFinalized = true → (getEvent s i).isActive = false) ∧
    i < (applyOp s op).predictionEvents.length ∧
    ((getEvent (applyOp s op) i).isActive = true →
      (getEvent s i).isActive = true) ∧
    ((getEvent s i).isFinalized = true →
      (getEvent (applyOp s op) i).isFinalized = true) ∧
    ((getEvent s i).isActive = true →
      (getEvent (applyOp s op) i).isFinalized = false) := by
  obtain ⟨hev, _hreq, _hnodup, _hpred⟩ := reachable_inv hs
  obtain ⟨h1, _h2, h3, h4, h5⟩ := applyOp_step s op i hi
  refine ⟨hev i hi, h1, h3, h4, ?_⟩
  intro hact
  rw [h5 hact]
  cases hfin : (getEvent s i).isFinalized with
  | false => rfl
  | true =>
    rw [hev i hi hfin] at hact
    exact Bool.noConfusion hact

/-- Instance of `C3_lifecycle_monotone` on the concrete ended event and
the finalize invocation. -/
theorem C3_witness :
    ((getEvent exE3 0).isFinalized = true → (getEvent exE3 0).isActive = false) ∧
    0 < (applyOp exE3 (.finalize 0 0)).predictionEvents.length ∧
    ((getEvent (applyOp exE3 (.finalize 0 0)) 0).isActive = true →
      (getEvent exE3 0).isActive = true) ∧
    ((getEvent exE3 0).isFinalized = true →
      (getEvent (applyOp exE3 (.finalize 0 0)) 0).isFinalized = true) ∧
    ((getEvent exE3 0).isActive = true →
      (getEvent (applyOp exE3 (.finalize 0 0)) 0).isFinalized = false) :=
  C3_lifecycle_monotone exE3 reachable_exE3 (.finalize 0 0) 0 (by decide)

/-! Claim C4. -/

/-- C4: the source performs no correlation-existence check in
`decryptionCallback`.  For request id `999`, never recorded by any
finalize, the mapping read defaults to event `0`; on a reachable state
whose event `0` exists, has ended and holds one submission, the callback
passes every guard, finalizes event `0` and stores the caller-chosen
average — it does not fail with a NotFound-style error and it mutates
event state, contradicting the claim. -/
theorem C4_uncorrelated_callback :
    Reachable exE3 ∧
    exE3.requestToEvent = [] ∧
    lookupRequest exE3 999 = 0 ∧
    decryptionCallback exE3 999 (oracleCleartexts 200)
      = .ok (applyOp exE3 (.callback 999 (oracleCleartexts 200))) ∧
    (getEvent exE3 0).isFinalized = false ∧
    (getEvent (applyOp exE3 (.callback 999 (oracleCleartexts 200))) 0).isFinalized
      = true ∧
    (getEvent (applyOp exE3 (.callback 999 (oracleCleartexts 200)))
      0).decryptedAveragePrice = 200 :=
  ⟨reachable_exE3, by decide, by decide, by decide, by decide, by decide,
   by decide⟩

/-! Claim C5. -/

/-- C5 (amended): finalize succeeds only when the event exists, the
caller is its admin, it is inactive, not finalized, and has at least one
submission; with `submissionCount = 0` every finalize call fails,
issuing no decryption request and recording no correlation, and the
failure kind is `InvalidState` when the caller is the admin of an
existing event (a non-admin caller gets `PermissionDenied` instead). -/
theorem C5_finalize_guards (s : ContractState) (sender eventId : Nat) :
    (∀ s' rid, finalizePredictionEvent s sender eventId = .ok (s', rid) →
      eventId < s.predictionEvents.length ∧
      (getEvent s eventId).admin = sender ∧
      (getEvent s eventId).isActive = false ∧
      (getEvent s eventId).isFinalized = false ∧
      0 < (getEvent s eventId).totalPredictions) ∧
    ((getEvent s eventId).totalPredictions = 0 →
      (∀ s' rid, finalizePredictionEvent s sender eventId ≠ .ok (s', rid)) ∧
      applyOp s (.finalize sender eventId) = s ∧
      (eventId < s.predictionEvents.length →
        (getEvent s eventId).admin = sender →
        ∃ err, finalizePredictionEvent s sender eventId = .error err ∧
          Err.kind err = ErrKind.InvalidState)) := by
  constructor
  · intro s' rid hok
    obtain ⟨a, b, c, d, e, _f, _g⟩ := finalizePredictionEvent_ok hok
    exact ⟨a, b, c, d, e⟩
  · intro hzero
    have hnotok : ∀ s' rid,
        finalizePredictionEvent s sender eventId ≠ .ok (s', rid) := by
      intro s' rid hok
      obtain ⟨_a, _b, _c, _d, hpos, _f, _g⟩ := finalizePredictionEvent_ok hok
      omega
    refine ⟨hnotok, ?_, ?_⟩
    · simp only [applyOp]
      cases hres : finalizePredictionEvent s sender eventId with
      | ok p => exact absurd hres (hnotok p.1 p.2)
      | error e => rfl
    · intro hlenn hadm
      simp only [finalizePredictionEvent]
      rw [if_neg (not_not_intro hlenn), if_neg (not_not_intro hadm)]
      by_cases hactb : (getEvent s eventId).isActive = true
      · rw [if_pos hactb]
        exact ⟨.EventStillActive, rfl, rfl⟩
      · rw [if_neg hactb]
        by_cases hfinb : (getEvent s eventId).isFinalized = true
        · rw [if_pos hfinb]
          exact ⟨.EventAlreadyFinalized, rfl, rfl⟩
        · rw [if_neg hfinb, if_pos hzero]
          exact ⟨.NoPredictionsToFinalize, rfl, rfl⟩

/-- The C5 claim as stated is refuted for a non-admin caller: with
`submissionCount = 0` the call fails with `PermissionDenied`, not
`InvalidState` (it still records nothing). -/
theorem C5_counterexample :
    (getEvent exE1 0).totalPredictions = 0 ∧
    finalizePredictionEvent exE1 7 0 = .error .OnlyAdmin ∧
    Err.kind .OnlyAdmin = ErrKind.PermissionDenied ∧
    Err.kind .OnlyAdmin ≠ ErrKind.InvalidState ∧
    applyOp exE1 (.finalize 7 0) = exE1 := by
  decide

/-- Instance of `C5_finalize_guards`: the admin's finalize on the fresh
zero-submission event fails with an `InvalidState` error and mutates
nothing. -/
theorem C5_witness :
    applyOp exE1 (.finalize 0 0) = exE1 ∧
    (∃ err, finalizePredictionEvent exE1 0 0 = .error err ∧
      Err.kind err = ErrKind.InvalidState) :=
  ⟨((C5_finalize_guards exE1 0 0).2 (by decide)).2.1,
   ((C5_finalize_guards exE1 0 0).2 (by decide)).2.2 (by decide) (by decide)⟩

/-! Claim C6. -/

/-- C6: the batch entry point rejects mismatched array lengths, an empty
batch, and more than 10 items with `InvalidParameter`-kind errors;
otherwise it is exactly the sequential composition of single
submissions (with the duplicate error renamed to the batch message of
the same kind), and any failure reverts the whole call, leaving every
event's state untouched (all-or-nothing). -/
theorem C6_batch_semantics (s : ContractState) (sender now : Nat)
    (eventIds values : List Nat) (inputProofs : List Unit) :
    (¬ eventIds.length = values.length →
      submitBatchPredictions s sender now eventIds values inputProofs
        = .error .ArrayLengthMismatch) ∧
    (eventIds.length = values.length → ¬ eventIds.length = inputProofs.length →
      submitBatchPredictions s sender now eventIds values inputProofs
        = .error .ArrayLengthMismatch) ∧
    (eventIds.length = values.length → eventIds.length = inputProofs.length →
      eventIds.length = 0 →
      submitBatchPredictions s sender now eventIds values inputProofs
        = .error .CannotSubmitEmptyBatch) ∧
    (eventIds.length = values.length → eventIds.length = inputProofs.length →
      10 < eventIds.length →
      submitBatchPredictions s sender now eventIds values inputProofs
        = .error .BatchSizeTooLarge) ∧
    (eventIds.length = values.length → eventIds.length = inputProofs.length →
      0 < eventIds.length → eventIds.length ≤ 10 →
      submitBatchPredictions s sender now eventIds values inputProofs
        = (submitFold sender now s (eventIds.zip values)).mapError batchErr) ∧
    (∀ err : Err, (batchErr err).kind = err.kind) ∧
    (∀ err, submitBatchPredictions s sender now eventIds values inputProofs
        = .error err →
      applyOp s (.batch sender now eventIds values inputProofs) = s) := by
  refine ⟨?_, ?_, ?_, ?_, ?_, ?_, ?_⟩
  · intro h
    simp only [submitBatchPredictions]
    rw [if_pos h]
  · intro h1 h2
    simp only [submitBatchPredictions]
    rw [if_neg (not_not_intro h1), if_pos h2]
  · intro h1 h2 h3
    simp only [submitBatchPredictions]
    rw [if_neg (not_not_intro h1), if_neg (not_not_intro h2), if_pos (by omega)]
  · intro h1 h2 h3
    simp only [submitBatchPredictions]
    rw [if_neg (not_not_intro h1), if_neg (not_not_intro h2),
      if_neg (by omega), if_pos (by omega)]
  · intro h1 h2 h3 h4
    simp only [submitBatchPredictions]
    rw [if_neg (not_not_intro h1), if_neg (not_not_intro h2),
      if_neg (by omega), if_neg (by omega)]
    exact submitBatchLoop_eq sender now (eventIds.zip values) s
  · intro err
    cases err <;> rfl
  · intro err herr
    simp only [applyOp]
    cases hres : submitBatchPredictions s sender now eventIds values inputProofs with
    | ok t =>
      rw [hres] at herr
      exact Except.noConfusion herr
    | error e => rfl

/-- Instance of `C6_batch_semantics` (Scenario E): a three-item batch
whose second item is a duplicate submission fails as a whole with the
batch duplicate error, and no item's state is mutated. -/
theorem C6_witness :
    submitBatchPredictions exC3 9 6 [0, 1, 2] [10, 20, 30] [(), (), ()]
      = (submitFold 9 6 exC3 ([0, 1, 2].zip [10, 20, 30])).mapError batchErr ∧
    submitBatchPredictions exC3 9 6 [0, 1, 2] [10, 20, 30] [(), (), ()]
      = .error .AlreadySubmittedPredictionForEvent ∧
    applyOp exC3 (.batch 9 6 [0, 1, 2] [10, 20, 30] [(), (), ()]) = exC3 :=
  ⟨(C6_batch_semantics exC3 9 6 [0, 1, 2] [10, 20, 30] [(), (), ()]).2.2.2.2.1
      (by decide) (by decide) (by decide) (by decide),
   by decide,
   (C6_batch_semantics exC3 9 6 [0, 1, 2] [10, 20, 30] [(), (), ()]).2.2.2.2.2.2
      .AlreadySubmittedPredictionForEvent (by decide)⟩

/-! Claim C7. -/

/-- C7 (amended): setting the actual price succeeds exactly when the
event exists, the caller is its admin, the target time has passed by the
call's timestamp and the price is positive — the finalization status is
not checked by the source: the call also succeeds on a finalized event,
updating its `actualPrice`. -/
theorem C7_setActualPrice_guards (s : ContractState)
    (sender now eventId price : Nat) :
    (∀ s', setActualPrice s sender now eventId price = .ok s' →
      eventId < s.predictionEvents.length ∧
      (getEvent s eventId).admin = sender ∧
      now ≥ (getEvent s eventId).targetDate ∧
      0 < price ∧
      s' = { s with
        predictionEvents := s.predictionEvents.set eventId
          { getEvent s eventId with actualPrice := price } }) ∧
    (eventId < s.predictionEvents.length →
      (getEvent s eventId).admin = sender →
      now ≥ (getEvent s eventId).targetDate →
      0 < price →
      setActualPrice s sender now eventId price
        = .ok { s with
            predictionEvents := s.predictionEvents.set eventId
              { getEvent s eventId with actualPrice := price } }) := by
  constructor
  · intro s' hok
    obtain ⟨a, b, c, d, e⟩ := setActualPrice_ok hok
    exact ⟨a, b, c, d, e⟩
  · intro h1 h2 h3 h4
    simp only [setActualPrice]
    rw [if_neg (not_not_intro h1), if_neg (not_not_intro h2),
      if_neg (not_not_intro h3), if_neg (not_not_intro h4)]

/-- The C7 claim as stated is refuted on the code: on a reachable
finalized event, the admin's `setActualPrice` succeeds and changes the
stored reference price instead of failing. -/
theorem C7_counterexample :
    Reachable exE5 ∧
    (getEvent exE5 0).isFinalized = true ∧
    setActualPrice exE5 0 86400 0 777
      = .ok (applyOp exE5 (.setPrice 0 86400 0 777)) ∧
    (getEvent exE5 0).actualPrice = 0 ∧
    (getEvent (applyOp exE5 (.setPrice 0 86400 0 777)) 0).actualPrice = 777 :=
  ⟨reachable_exE5, by decide, by decide, by decide, by decide⟩

/-- Instance of `C7_setActualPrice_guards` on the finalized event. -/
theorem C7_witness :
    setActualPrice exE5 0 86400 0 777
      = .ok { exE5 with
          predictionEvents := exE5.predictionEvents.set 0
            { getEvent exE5 0 with actualPrice := 777 } } ∧
    (getEvent exE5 0).isFinalized = true :=
  ⟨(C7_setActualPrice_guards exE5 0 86400 0 777).2 (by decide) (by decide)
      (by decide) (by decide),
   by decide⟩

/-! Claim C8. -/

/-- C8 (amended): event creation fails with `InvalidParameter` errors
(appending nothing) when the target time is not in the future or the
duration is zero, and reverts with the checked-arithmetic overflow
panic when computing `endTime` overflows `uint256` (in the
multiplication or in the addition); the title is not validated —
creation with an empty title and otherwise valid, non-overflowing
parameters succeeds and appends the event. -/
theorem C8_create_guards (s : ContractState) (sender now : Nat)
    (title : String) (tokenType targetDate durationInHours : Nat) :
    (¬ targetDate > now →
      createPredictionEvent s sender now title tokenType targetDate durationInHours
        = .error .TargetDateMustBeInFuture) ∧
    (targetDate > now → ¬ durationInHours > 0 →
      createPredictionEvent s sender now title tokenType targetDate durationInHours
        = .error .DurationMustBePositive) ∧
    (targetDate > now → durationInHours > 0 → U256 ≤ durationInHours * 3600 →
      createPredictionEvent s sender now title tokenType targetDate durationInHours
        = .error .PanicArithmeticOverflow) ∧
    (targetDate > now → durationInHours > 0 → durationInHours * 3600 < U256 →
      U256 ≤ now + durationInHours * 3600 →
      createPredictionEvent s sender now title tokenType targetDate durationInHours
        = .error .PanicArithmeticOverflow) ∧
    (targetDate > now → durationInHours > 0 →
      now + durationInHours * 3600 < U256 →
      createPredictionEvent s sender now title tokenType targetDate durationInHours
        = .ok ({ s with
            predictionEvents := s.predictionEvents ++
              [{ title := title, tokenType := tokenType, targetDate := targetDate,
                 endTime := now + durationInHours * 3600,
                 isActive := true, isFinalized := false, admin := sender,
                 totalPredictions := 0, actualPrice := 0,
                 encryptedPriceSum := 0, decryptedAveragePrice := 0 }] },
           s.predictionEvents.length)) ∧
    Err.kind .TargetDateMustBeInFuture = ErrKind.InvalidParameter ∧
    Err.kind .DurationMustBePositive = ErrKind.InvalidParameter ∧
    Err.kind .PanicArithmeticOverflow = ErrKind.Panic ∧
    (∀ err, createPredictionEvent s sender now title tokenType targetDate
        durationInHours = .error err →
      applyOp s (.create sender now title tokenType targetDate durationInHours)
        = s) := by
  refine ⟨?_, ?_, ?_, ?_, ?_, rfl, rfl, rfl, ?_⟩
  · intro h
    simp only [createPredictionEvent]
    rw [if_pos h]
  · intro h1 h2
    simp only [createPredictionEvent]
    rw [if_neg (not_not_intro h1), if_pos h2]
  · intro h1 h2 h3
    simp only [createPredictionEvent]
    rw [if_neg (not_not_intro h1), if_neg (not_not_intro h2), if_pos h3]
  · intro h1 h2 h3 h4
    simp only [createPredictionEvent]
    rw [if_neg (not_not_intro h1), if_neg (not_not_intro h2),
      if_neg (by omega), if_pos h4]
  · intro h1 h2 h3
    simp only [createPredictionEvent]
    rw [if_neg (not_not_intro h1), if_neg (not_not_intro h2),
      if_neg (by omega), if_neg (by omega)]
  · intro err herr
    simp only [applyOp]
    cases hres : createPredictionEvent s sender now title tokenType targetDate
        durationInHours with
    | ok p =>
      rw [hres] at herr
      exact Except.noConfusion herr
    | error e => rfl

/-- The C8 claim as stated is refuted on the code: creation with an
empty title (and otherwise valid parameters) succeeds and appends the
event, instead of failing with `InvalidParameter`. -/
theorem C8_counterexample :
    createPredictionEvent initialState 3 0 "" 0 10 1 = .ok (exT, 0) ∧
    exT.predictionEvents.length = 1 ∧
    (getEvent exT 0).title = "" ∧
    (getEvent exT 0).isActive = true ∧
    (getEvent exT 0).admin = 3 := by
  decide

/-- Instance of `C8_create_guards`: a non-future target time is rejected
with `InvalidParameter` and nothing is appended, while an empty title
with valid, non-overflowing parameters is accepted. -/
theorem C8_witness :
    createPredictionEvent initialState 3 5 "T" 0 0 1
      = .error .TargetDateMustBeInFuture ∧
    applyOp initialState (.create 3 5 "T" 0 0 1) = initialState ∧
    createPredictionEvent initialState 3 0 "" 0 10 1
      = .ok ({ initialState with
          predictionEvents := initialState.predictionEvents ++
            [{ title := "", tokenType := 0, targetDate := 10,
               endTime := 0 + 1 * 3600,
               isActive := true, isFinalized := false, admin := 3,
               totalPredictions := 0, actualPrice := 0,
               encryptedPriceSum := 0, decryptedAveragePrice := 0 }] },
         initialState.predictionEvents.length) :=
  ⟨(C8_create_guards initialState 3 5 "T" 0 0 1).1 (by decide),
   (C8_create_guards initialState 3 5 "T" 0 0 1).2.2.2.2.2.2.2.2
      .TargetDateMustBeInFuture
      ((C8_create_guards initialState 3 5 "T" 0 0 1).1 (by decide)),
   (C8_create_guards initialState 3 0 "" 0 10 1).2.2.2.2.1
      (by decide) (by decide) (by decide)⟩

/-! Claim C10. -/

/-- C10: `hasUserPredicted` is a total boolean read with no existence
modifier: on any reachable state it returns `false` whenever no
submission is stored for the pair, and in particular returns `false`
(rather than failing with a NotFound error) for every `eventId` at or
beyond the event count. -/
theorem C10_hasUserPredicted_total (s : ContractState) (hs : Reachable s)
    (eventId user : Nat) :
    ((∀ q ∈ s.userPredictions, q.1 ≠ (eventId, user)) →
      hasUserPredicted s eventId user = false) ∧
    (s.predictionEvents.length ≤ eventId →
      hasUserPredicted s eventId user = false) := by
  obtain ⟨_hev, _hreq, _hnodup, hpred⟩ := reachable_inv hs
  have habs : (∀ q ∈ s.userPredictions, q.1 ≠ (eventId, user)) →
      hasUserPredicted s eventId user = false := by
    intro hnone
    unfold hasUserPredicted lookupPrediction
    cases hf : s.userPredictions.find? (fun q => q.1 == (eventId, user)) with
    | none => rfl
    | some q =>
      have hqmem := List.mem_of_find?_eq_some hf
      have hkey := List.find?_some hf
      have hkey2 : q.1 = (eventId, user) := by simpa using hkey
      exact absurd hkey2 (hnone q hqmem)
  refine ⟨habs, ?_⟩
  intro hge
  refine habs ?_
  intro q hq hkey
  have hb := hpred q hq
  rw [hkey] at hb
  simp only at hb
  omega

/-- Instance of `C10_hasUserPredicted_total` on a fresh deployment with
no events at all. -/
theorem C10_witness : hasUserPredicted initialState 5 0 = false :=
  (C10_hasUserPredicted_total initialState Reachable.init 5 0).2 (by decide)

/-! Claim C9. -/

/-- C9 (amended): for every correlation recorded by finalize in a
reachable state, the correlated event exists and its submission counter
is strictly positive (finalize requires this and no operation decreases
a counter); the callback divides by `uint32(totalPredictions)`, so the
divisor is nonzero — and the callback can never fail with a
division-by-zero panic — whenever the counter is not a multiple of
`2^32`.  (The 32-bit cast of the divisor is why the unamended claim
fails; see the counterexample.) -/
theorem C9_divisor_positive (s : ContractState) (hs : Reachable s) (r e : Nat)
    (hmem : (r, e) ∈ s.requestToEvent) :
    e < s.predictionEvents.length ∧
    0 < (getEvent s e).totalPredictions ∧
    lookupRequest s r = e ∧
    ((getEvent s e).totalPredictions % U32 ≠ 0 →
      ∀ cts, decryptionCallback s r cts ≠ .error .PanicDivisionByZero) := by
  obtain ⟨_hev, hreq, hnodup, _hpred⟩ := reachable_inv hs
  obtain ⟨_h1, h2, h3⟩ := hreq (r, e) hmem
  have hlook : lookupRequest s r = e := lookupRequest_of_mem hnodup hmem
  refine ⟨h2, h3, hlook, ?_⟩
  intro hnz cts hcb
  simp only [decryptionCallback, hlook] at hcb
  rw [if_neg (not_not_intro h2)] at hcb
  split at hcb
  · simp at hcb
  · split at hcb
    · simp at hcb
    · split at hcb
      · simp at hcb
      · exact Except.noConfusion hcb

theorem reachable_exE4 : Reachable exE4 :=
  Reachable.step _ reachable_exE3

/-- Instance of `C9_divisor_positive` on the concrete finalized
request. -/
theorem C9_witness :
    0 < (getEvent exE4 0).totalPredictions ∧
    lookupRequest exE4 1 = 0 ∧
    decryptionCallback exE4 1 [0, 0, 0, 0] ≠ .error .PanicDivisionByZero :=
  ⟨(C9_divisor_positive exE4 reachable_exE4 1 0 (by decide)).2.1,
   (C9_divisor_positive exE4 reachable_exE4 1 0 (by decide)).2.2.1,
   (C9_divisor_positive exE4 reachable_exE4 1 0 (by decide)).2.2.2 (by decide)
     [0, 0, 0, 0]⟩

theorem bigSubmit_spec (n : Nat) :
    (bigSubmit n).predictionEvents = [evB n] ∧
    (∀ u, ((lookupPrediction (bigSubmit n) 0 u).existsFlag = true) ↔ u < n) ∧
    (bigSubmit n).requestToEvent = [] ∧
    (bigSubmit n).nextRequestId = 1 := by
  induction n with
  | zero =>
    have hups : (bigSubmit 0).userPredictions = [] := by decide
    refine ⟨by decide, ?_, by decide, by decide⟩
    intro u
    have hflag : (lookupPrediction (bigSubmit 0) 0 u).existsFlag = false := by
      unfold lookupPrediction
      rw [hups]
      rfl
    rw [hflag]
    simp
  | succ n ih =>
    obtain ⟨hevs, hlook, hreqs, hnid⟩ := ih
    have hget : getEvent (bigSubmit n) 0 = evB n := by
      rw [getEvent, hevs]
      rfl
    have hdupf : (lookupPrediction (bigSubmit n) 0 n).existsFlag = false := by
      cases hfl : (lookupPrediction (bigSubmit n) 0 n).existsFlag with
      | false => rfl
      | true => exact absurd ((hlook n).mp hfl) (lt_irrefl n)
    have hok : submitPrediction (bigSubmit n) n 1 0 0
        = .ok { bigSubmit n with
            predictionEvents := (bigSubmit n).predictionEvents.set 0 (evB (n + 1))
            userPredictions :=
              ((0, n), ⟨0, 1, true⟩) :: (bigSubmit n).userPredictions } := by
      simp only [submitPrediction, hget]
      rw [if_neg (not_not_intro (by rw [hevs]; simp)),
        if_neg (by simp [evB]), if_neg (not_not_intro (by simp [evB])),
        if_neg (by simp [evB]), if_neg (by simp [hdupf])]
      have hif : (if (evB n).totalPredictions = 0 then 0 % U32
          else ((evB n).encryptedPriceSum + 0 % U32) % U32) = 0 := by
        split
        · decide
        · show ((0 : Nat) + 0 % U32) % U32 = 0
          decide
      rw [hif]
      rfl
    have hstep : bigSubmit (n + 1)
        = { bigSubmit n with
            predictionEvents := (bigSubmit n).predictionEvents.set 0 (evB (n + 1))
            userPredictions :=
              ((0, n), ⟨0, 1, true⟩) :: (bigSubmit n).userPredictions } := by
      show applyOp (bigSubmit n) (.submit n 1 0 0) = _
      simp only [applyOp]
      rw [hok]
    refine ⟨?_, ?_, ?_, ?_⟩
    · rw [hstep]
      show (bigSubmit n).predictionEvents.set 0 (evB (n + 1)) = [evB (n + 1)]
      rw [hevs]
      rfl
    · intro u
      rw [hstep]
      unfold lookupPrediction
      show (((List.find? (fun q => q.1 == (0, u))
            ((((0 : Nat), n),
              ({ encryptedPrice := 0, timestamp := 1, existsFlag := true }
                : UserPrediction))
              :: (bigSubmit n).userPredictions)).map Prod.snd).getD
          { encryptedPrice := 0, timestamp := 0, existsFlag := false }).existsFlag
          = true ↔ u < n + 1
      by_cases hu : n = u
      · subst hu
        rw [List.find?_cons_of_pos _ (by simp)]
        simp
      · rw [List.find?_cons_of_neg _ (by simp [hu])]
        have := hlook u
        unfold lookupPrediction at this
        rw [this]
        omega
    · rw [hstep]
      exact hreqs
    · rw [hstep]
      exact hnid

theorem reachable_bigSubmit (n : Nat) : Reachable (bigSubmit n) := by
  induction n with
  | zero => exact Reachable.step (.create 0 0 "B" 0 3600 1) Reachable.init
  | succ n ih => exact Reachable.step (.submit n 1 0 0) ih

theorem ended_spec_of (s : ContractState) (n : Nat)
    (hevs : s.predictionEvents = [evB n])
    (hreqs : s.requestToEvent = []) (hnid : s.nextRequestId = 1) :
    (applyOp s (.endEvent 3600 0)).predictionEvents
      = [{ evB n with isActive := false }] ∧
    (applyOp s (.endEvent 3600 0)).requestToEvent = [] ∧
    (applyOp s (.endEvent 3600 0)).nextRequestId = 1 := by
  have hget : getEvent s 0 = evB n := by
    rw [getEvent, hevs]
    rfl
  have hok : endPredictionEvent s 3600 0
      = .ok { s with
          predictionEvents := s.predictionEvents.set 0
            { evB n with isActive := false } } := by
    simp only [endPredictionEvent, hget]
    rw [if_neg (not_not_intro (by rw [hevs]; simp)),
      if_neg (by simp [evB]), if_neg (not_not_intro (by simp [evB]))]
  have hstep : applyOp s (.endEvent 3600 0)
      = { s with
          predictionEvents := s.predictionEvents.set 0
            { evB n with isActive := false } } := by
    simp only [applyOp]
    rw [hok]
  rw [hstep, hevs]
  exact ⟨rfl, hreqs, hnid⟩

theorem finalized_spec_of (s : ContractState) (n : Nat) (hn : ¬ n = 0)
    (hevs : s.predictionEvents = [{ evB n with isActive := false }])
    (hreqs : s.requestToEvent = []) (hnid : s.nextRequestId = 1) :
    (applyOp s (.finalize 0 0)).predictionEvents
      = [{ evB n with isActive := false }] ∧
    (applyOp s (.finalize 0 0)).requestToEvent = [(1, 0)] := by
  have hget : getEvent s 0 = { evB n with isActive := false } := by
    rw [getEvent, hevs]
    rfl
  have hok : finalizePredictionEvent s 0 0
      = .ok ({ s with
          requestToEvent := (s.nextRequestId, 0) :: s.requestToEvent
          nextRequestId := s.nextRequestId + 1 }, s.nextRequestId) := by
    simp only [finalizePredictionEvent, hget]
    rw [if_neg (not_not_intro (by rw [hevs]; simp)),
      if_neg (by simp [evB]), if_neg (by simp [evB]), if_neg (by simp [evB]),
      if_neg (by simp [evB, hn])]
  have hstep : applyOp s (.finalize 0 0)
      = { s with
          requestToEvent := (s.nextRequestId, 0) :: s.requestToEvent
          nextRequestId := s.nextRequestId + 1 } := by
    simp only [applyOp]
    rw [hok]
  rw [hstep]
  refine ⟨hevs, ?_⟩
  show (s.nextRequestId, 0) :: s.requestToEvent = [(1, 0)]
  rw [hreqs, hnid]

theorem callback_divzero_of (s : ContractState) (n : Nat)
    (hmod : n % U32 = 0)
    (hevs : s.predictionEvents = [{ evB n with isActive := false }])
    (hreqs : s.requestToEvent = [(1, 0)]) :
    decryptionCallback s 1 [0, 0, 0, 0] = .error .PanicDivisionByZero := by
  have hlook : lookupRequest s 1 = 0 := by
    unfold lookupRequest
    rw [hreqs]
    rfl
  have hget : getEvent s 0 = { evB n with isActive := false } := by
    rw [getEvent, hevs]
    rfl
  simp only [decryptionCallback, hlook, hget]
  rw [if_neg (not_not_intro (by rw [hevs]; simp)),
    if_neg (by simp [evB]), if_neg (by simp [evB]),
    if_neg (by simp), if_pos (by simp [evB]; exact hmod)]

theorem bigEnded_spec :
    bigEnded.predictionEvents = [{ evB U32 with isActive := false }] ∧
    bigEnded.requestToEvent = [] ∧
    bigEnded.nextRequestId = 1 := by
  obtain ⟨hevs, _hlook, hreqs, hnid⟩ := bigSubmit_spec U32
  exact ended_spec_of (bigSubmit U32) U32 hevs hreqs hnid

theorem bigFinal_spec :
    bigFinal.predictionEvents = [{ evB U32 with isActive := false }] ∧
    bigFinal.requestToEvent = [(1, 0)] := by
  obtain ⟨hevs, hreqs, hnid⟩ := bigEnded_spec
  exact finalized_spec_of bigEnded U32 (by rw [U32_eq]; omega) hevs hreqs hnid

theorem reachable_bigFinal : Reachable bigFinal :=
  Reachable.step (.finalize 0 0)
    (Reachable.step (.endEvent 3600 0) (reachable_bigSubmit U32))

/-- The C9 claim as stated is refuted by the `uint32` cast of the
divisor: after `2^32` submissions from distinct participants (the
address space is far larger than `2^32`), finalize records request `1`
for event `0` whose `totalPredictions = 2^32` is strictly positive, yet
the callback divides by `uint32(2^32) = 0` and reverts with a
division-by-zero panic. -/
theorem C9_counterexample :
    Reachable bigFinal ∧
    (1, 0) ∈ bigFinal.requestToEvent ∧
    (getEvent bigFinal 0).totalPredictions = U32 ∧
    0 < (getEvent bigFinal 0).totalPredictions ∧
    decryptionCallback bigFinal 1 [0, 0, 0, 0]
      = .error .PanicDivisionByZero := by
  obtain ⟨hevs, hreqs⟩ := bigFinal_spec
  have hget : getEvent bigFinal 0 = { evB U32 with isActive := false } := by
    rw [getEvent, hevs]
    rfl
  refine ⟨reachable_bigFinal, ?_, ?_, ?_, ?_⟩
  · rw [hreqs]
    exact List.mem_singleton.mpr rfl
  · rw [hget]
    rfl
  · rw [hget]
    show 0 < U32
    rw [U32_eq]
    omega
  · exact callback_divzero_of bigFinal U32 (by rw [U32_eq]) hevs hreqs

end CryptoPriceGuess
